import Mathlib

/-!
Verification of the Tic-Tac-Toe engine (`tictactoe.py`): board representation,
outcome classification (`update_value`), successor generation
(`get_valid_board_states`), move application (`make_move`), and minimax search
with alpha-beta pruning (`minimax`, `minimax_with_alpha_beta`).

Cells are `Option Player` (`none` is an empty cell, mirroring Python's `None`);
a grid is a list of rows, each a list of cells, mirroring the Python list of
lists.  The cached classification `value` is `Option Int` (`none` is
"undetermined").  Out-of-range list accesses that raise `IndexError` in Python
are modelled by `Option`-returning operations; Python's negative-index
aliasing is modelled by `pyIdx`.

The list operations used by the engine (`lgetD`, `lset`, `lall`, `lany`,
`lmap`, `lfilter`, `lflatMap`, `lrange`, `llen`, `lcountP`, `lsum`) are spelled
out through `List.rec`/`Nat.rec` so that concrete runs of the engine reduce
quickly inside the kernel; each is proven equal to the corresponding standard
library function (`lgetD_eq`, `lset_eq`, ...), and those equations are what the
correctness proofs use.
-/

namespace TicTacToe

section ListPrims

variable {α : Type} {β : Type}

/-- `l[n]` with default `d` (Python `list` read access). -/
def lgetD : List α → Nat → α → α :=
  List.rec (fun _ d => d) fun a _ ih n d =>
    Nat.rec a (fun m _ => ih m d) n

theorem lgetD_eq (l : List α) (n : Nat) (d : α) : lgetD l n d = l.getD n d := by
  induction l generalizing n with
  | nil => rfl
  | cons a as ih => cases n with
    | zero => rfl
    | succ m =>
      show lgetD as m d = _
      rw [ih, List.getD_cons_succ]

/-- `l` with entry `n` replaced by `v` (Python `l[n] = v`); unchanged when
`n` is out of range. -/
def lset : List α → Nat → α → List α :=
  List.rec (fun _ _ => []) fun a as ih n v =>
    Nat.rec (v :: as) (fun m _ => a :: ih m v) n

theorem lset_eq (l : List α) (n : Nat) (v : α) : lset l n v = l.set n v := by
  induction l generalizing n with
  | nil => rfl
  | cons a as ih => cases n with
    | zero => rfl
    | succ m =>
      show a :: lset as m v = _
      rw [ih, List.set_cons_succ]

/-- Python `all(p(x) for x in l)`. -/
def lall (p : α → Bool) : List α → Bool :=
  List.rec true fun a _ ih => p a && ih

theorem lall_eq (p : α → Bool) (l : List α) : lall p l = l.all p := by
  induction l with
  | nil => rfl
  | cons a as ih =>
    show (p a && lall p as) = _
    rw [ih, List.all_cons]

/-- Python `any(p(x) for x in l)`. -/
def lany (p : α → Bool) : List α → Bool :=
  List.rec false fun a _ ih => p a || ih

theorem lany_eq (p : α → Bool) (l : List α) : lany p l = l.any p := by
  induction l with
  | nil => rfl
  | cons a as ih =>
    show (p a || lany p as) = _
    rw [ih, List.any_cons]

/-- List map. -/
def lmap (f : α → β) : List α → List β :=
  List.rec [] fun a _ ih => f a :: ih

theorem lmap_eq (f : α → β) (l : List α) : lmap f l = l.map f := by
  induction l with
  | nil => rfl
  | cons a as ih =>
    show f a :: lmap f as = _
    rw [ih, List.map_cons]

/-- List filter. -/
def lfilter (p : α → Bool) : List α → List α :=
  List.rec [] fun a _ ih => cond (p a) (a :: ih) ih

theorem lfilter_eq (p : α → Bool) (l : List α) : lfilter p l = l.filter p := by
  induction l with
  | nil => rfl
  | cons a as ih =>
    show cond (p a) (a :: lfilter p as) (lfilter p as) = _
    cases h : p a <;> simp [List.filter_cons, h, ih]

/-- List append. -/
def lappend (l₁ l₂ : List α) : List α :=
  List.rec l₂ (fun a _ ih => a :: ih) l₁

theorem lappend_eq (l₁ l₂ : List α) : lappend l₁ l₂ = l₁ ++ l₂ := by
  induction l₁ with
  | nil => rfl
  | cons a as ih =>
    show a :: lappend as l₂ = _
    rw [ih, List.cons_append]

/-- Concatenated map (the successor-collection loop shape). -/
def lflatMap (f : α → List β) : List α → List β :=
  List.rec [] fun a _ ih => lappend (f a) ih

theorem lflatMap_eq (f : α → List β) (l : List α) :
    lflatMap f l = l.flatMap f := by
  induction l with
  | nil => rfl
  | cons a as ih =>
    show lappend (f a) (lflatMap f as) = _
    rw [lappend_eq, ih]; rfl

/-- `range(n)` as a list. -/
def lrangeLoop : Nat → List Nat → List Nat :=
  Nat.rec (fun ns => ns) fun n ih ns => ih (n :: ns)

/-- Python `range(n)`: the list `[0, 1, ..., n-1]`. -/
def lrange (n : Nat) : List Nat :=
  lrangeLoop n []

theorem lrangeLoop_eq (n : Nat) (ns : List Nat) :
    lrangeLoop n ns = List.range.loop n ns := by
  induction n generalizing ns with
  | zero => rfl
  | succ m ih =>
    show lrangeLoop m (m :: ns) = _
    rw [ih, show List.range.loop (m + 1) ns = List.range.loop m (m :: ns) from rfl]

theorem lrange_eq (n : Nat) : lrange n = List.range n := by
  show lrangeLoop n [] = _
  rw [lrangeLoop_eq]; rfl

/-- Python `len(l)`. -/
def llen : List α → Nat :=
  List.rec 0 fun _ _ ih => ih + 1

theorem llen_eq (l : List α) : llen l = l.length := by
  induction l with
  | nil => rfl
  | cons a as ih =>
    show llen as + 1 = _
    rw [ih, List.length_cons]

/-- Number of elements satisfying `p`. -/
def lcountP (p : α → Bool) : List α → Nat :=
  List.rec 0 fun a _ ih => cond (p a) (ih + 1) ih

theorem lcountP_eq (p : α → Bool) (l : List α) : lcountP p l = l.countP p := by
  induction l with
  | nil => rfl
  | cons a as ih =>
    show cond (p a) (lcountP p as + 1) (lcountP p as) = _
    cases h : p a <;> simp [List.countP_cons, h, ih]

/-- Sum of a list of naturals. -/
def lsum : List Nat → Nat :=
  List.rec 0 fun a _ ih => a + ih

theorem lsum_eq (l : List Nat) : lsum l = l.sum := by
  induction l with
  | nil => rfl
  | cons a as ih =>
    show a + lsum as = _
    rw [ih, List.sum_cons]

end ListPrims

inductive Player where
  | one : Player
  | two : Player
deriving DecidableEq, Repr

abbrev Cell := Option Player

abbrev Grid := List (List Cell)

/-- A board plus its cached classification, as in the Python `BoardState`
class (`board` and `value` fields). -/
structure BoardState where
  board : Grid
  value : Option Int
deriving DecidableEq, Repr

/-- `BoardState.__init__`: an all-empty square grid; the `value` class
attribute starts out as `None`. -/
def initialState (board_size : Nat) : BoardState :=
  { board := List.replicate board_size (List.replicate board_size none)
    value := none }

/-- Cell lookup `board[i][j]`, total via defaults (used only at in-range
indices in the theorems). -/
def cellAt (b : Grid) (i j : Nat) : Cell :=
  lgetD (lgetD b i []) j none

theorem cellAt_eq (b : Grid) (i j : Nat) :
    cellAt b i j = (b.getD i []).getD j none := by
  unfold cellAt; rw [lgetD_eq, lgetD_eq]

/-- `cell == mark` for a player mark, as a direct boolean test. -/
def markb : Player → Cell → Bool
  | .one, some .one => true
  | .two, some .two => true
  | _, _ => false

/-- `cell is None`: the cell is empty. -/
def emptyb : Cell → Bool
  | none => true
  | some _ => false

theorem markb_eq (p : Player) (c : Cell) :
    markb p c = decide (c = some p) := by
  cases p <;> rcases c with _ | c
  case one.none => rfl
  case two.none => rfl
  all_goals cases c <;> rfl

theorem emptyb_eq (c : Cell) : emptyb c = decide (c = none) := by
  cases c <;> rfl

/-- The row loop of `update_value`: the first row entirely held by a single
player decides, PlayerOne checked before PlayerTwo in each row. -/
def checkRows : Grid → Option Int :=
  List.rec none fun row _ ih =>
    if lall (markb Player.one) row then some 1
    else if lall (markb Player.two) row then some (-1)
    else ih

/-- Column `i` entirely held by `p`: `all(row[i] == mark for row in board)`. -/
def colAll (b : Grid) (i : Nat) (p : Player) : Bool :=
  lall (fun row => markb p (lgetD row i none)) b

/-- The column loop of `update_value` over the given column indices. -/
def checkCols (b : Grid) : List Nat → Option Int :=
  List.rec none fun i _ ih =>
    if colAll b i Player.one then some 1
    else if colAll b i Player.two then some (-1)
    else ih

/-- Main diagonal entirely held by `p`:
`all(board[i][i] == mark for i in range(board_size))`. -/
def diagAll (b : Grid) (p : Player) : Bool :=
  lall (fun i => markb p (cellAt b i i)) (lrange (llen b))

/-- Anti-diagonal entirely held by `p`:
`all(board[board_size - i - 1][i] == mark for i in range(board_size))`. -/
def antiDiagAll (b : Grid) (p : Player) : Bool :=
  lall (fun i => markb p (cellAt b (llen b - i - 1) i)) (lrange (llen b))

/-- `BoardState.update_value`: rows, then columns, then the main diagonal,
then the anti-diagonal (PlayerOne before PlayerTwo at every check), then
`none` if any cell is empty, else a tie (`0`). -/
def update_value (b : Grid) : Option Int :=
  match checkRows b with
  | some v => some v
  | none =>
    match checkCols b (lrange (llen b)) with
    | some v => some v
    | none =>
      if diagAll b Player.one then some 1
      else if diagAll b Player.two then some (-1)
      else if antiDiagAll b Player.one then some 1
      else if antiDiagAll b Player.two then some (-1)
      else if lany (fun row => lany emptyb row) b then none
      else some 0

/-- The in-range core of `make_move`: `board[row][column] = player` followed
by `update_value`, producing the new state. -/
def make_move_at (s : BoardState) (row column : Nat) (player : Player) :
    BoardState :=
  let b := lset s.board row (lset (lgetD s.board row []) column (some player))
  { board := b, value := update_value b }

/-- Python list indexing: an index in `[-n, n)` resolves (negative indices
alias from the end), anything else raises `IndexError` (here `none`). -/
def pyIdx (n : Nat) (i : Int) : Option Nat :=
  let j := if i < 0 then i + n else i
  if 0 ≤ j ∧ j < n then some j.toNat else none

/-- `BoardState.make_move`: resolves `move = (row, column)` with Python list
indexing (the row index against the number of rows, the column index against
the selected row's length), then sets the cell and recomputes the value;
`none` models the `IndexError` raised on an out-of-range index. -/
def make_move (s : BoardState) (move : Int × Int) (player : Player) :
    Option BoardState :=
  match pyIdx (llen s.board) move.1 with
  | none => none
  | some row =>
    match pyIdx (llen (lgetD s.board row [])) move.2 with
    | none => none
    | some column => some (make_move_at s row column player)

/-- `BoardState.get_valid_board_states`: for each row index `i` and column
index `j` in order, if the cell is empty, the deep copy with the move
`(i, j)` applied for `player`. -/
def get_valid_board_states (s : BoardState) (player : Player) :
    List BoardState :=
  lflatMap (fun i =>
      lmap (fun j => make_move_at s i j player)
        (lfilter (fun j => emptyb (cellAt s.board i j))
          (lrange (llen (lgetD s.board i [])))))
    (lrange (llen s.board))

/-- Number of empty cells of a grid. -/
def countEmpty (b : Grid) : Nat :=
  lsum (lmap (lcountP emptyb) b)

/-- Extended search values: the floats `-inf`, finite numbers, `+inf` used
for the alpha-beta window. -/
inductive XV where
  | negInf : XV
  | num : Int → XV
  | posInf : XV
deriving DecidableEq, Repr

namespace XV

/-- Comparison of extended values, as Python compares
`float('-inf')`/`float('inf')` with integers. -/
def leb : XV → XV → Bool
  | .negInf, _ => true
  | _, .posInf => true
  | .num a, .num b => decide (a ≤ b)
  | _, _ => false

instance : LE XV := ⟨fun a b => leb a b = true⟩

theorem le_def (a b : XV) : a ≤ b ↔ leb a b = true := Iff.rfl

instance (a b : XV) : Decidable (a ≤ b) :=
  inferInstanceAs (Decidable (leb a b = true))

instance : LinearOrder XV where
  le_refl a := by cases a <;> simp [le_def, leb]
  le_trans a b c := by
    cases a <;> cases b <;> cases c <;> simp [le_def, leb]
    omega
  le_antisymm a b := by
    cases a <;> cases b <;> simp [le_def, leb]
    omega
  le_total a b := by
    cases a <;> cases b <;> simp [le_def, leb]
    omega
  decidableLE a b := inferInstanceAs (Decidable (leb a b = true))

theorem negInf_le (a : XV) : XV.negInf ≤ a := by cases a <;> simp [le_def, leb]

theorem le_posInf (a : XV) : a ≤ XV.posInf := by
  cases a <;> simp [le_def, leb]

theorem negInf_lt_num (v : Int) : XV.negInf < XV.num v := by
  constructor <;> simp [le_def, leb]

theorem num_lt_posInf (v : Int) : XV.num v < XV.posInf := by
  constructor <;> simp [le_def, leb]

theorem negInf_lt_posInf : XV.negInf < XV.posInf := by
  constructor <;> simp [le_def, leb]

theorem num_le_num {a b : Int} : XV.num a ≤ XV.num b ↔ a ≤ b := by
  simp [le_def, leb]

/-- Python `max` on extended values, as a direct computation. -/
def maxv : XV → XV → XV
  | .negInf, b => b
  | .num a, .num b => .num (if a ≤ b then b else a)
  | .num a, .negInf => .num a
  | .num _, .posInf => .posInf
  | .posInf, _ => .posInf

/-- Python `min` on extended values, as a direct computation. -/
def minv : XV → XV → XV
  | .posInf, b => b
  | .num a, .num b => .num (if a ≤ b then a else b)
  | .num a, .posInf => .num a
  | .num _, .negInf => .negInf
  | .negInf, _ => .negInf

theorem maxv_eq (a b : XV) : maxv a b = max a b := by
  rw [max_def]
  cases a <;> cases b <;>
    simp only [maxv, le_def, leb, decide_eq_true_eq] <;>
    split <;> simp_all <;> omega

theorem minv_eq (a b : XV) : minv a b = min a b := by
  rw [min_def]
  cases a <;> cases b <;>
    simp only [minv, le_def, leb, decide_eq_true_eq] <;>
    split <;> simp_all <;> omega

theorem num_lt_num {a b : Int} : XV.num a < XV.num b ↔ a < b := by
  constructor
  · intro h
    have h1 := le_of_lt h
    have h2 := h.not_le
    rw [num_le_num] at h1
    by_contra hc
    exact h2 (num_le_num.mpr (by omega))
  · intro h
    exact lt_of_le_of_ne (num_le_num.mpr h.le) (by simp; omega)

end XV

/-- The maximizer loop of `_minimax_with_alpha_beta`, with the recursive
evaluation passed as `rec`: `alpha = max(alpha, rec(child, alpha, beta,
two))`, breaking as soon as `beta <= alpha`; returns the final `alpha`. -/
def abMaxLoop (rec : BoardState → XV → XV → Player → Option XV)
    (l : List BoardState) : XV → XV → Option XV :=
  List.rec (motive := fun _ => XV → XV → Option XV)
    (fun alpha _ => some alpha)
    (fun t _ ih alpha beta =>
      match rec t alpha beta .two with
      | none => none
      | some v =>
        let alpha2 : XV := XV.maxv alpha v
        if XV.leb beta alpha2 then some alpha2 else ih alpha2 beta)
    l

/-- The minimizer loop of `_minimax_with_alpha_beta`, with the recursive
evaluation passed as `rec`: `beta = min(beta, rec(child, alpha, beta,
one))`, breaking as soon as `beta <= alpha`; returns the final `beta`. -/
def abMinLoop (rec : BoardState → XV → XV → Player → Option XV)
    (l : List BoardState) : XV → XV → Option XV :=
  List.rec (motive := fun _ => XV → XV → Option XV)
    (fun _ beta => some beta)
    (fun t _ ih alpha beta =>
      match rec t alpha beta .one with
      | none => none
      | some v =>
        let beta2 : XV := XV.minv beta v
        if XV.leb beta2 alpha then some beta2 else ih alpha beta2)
    l

/-- `_minimax_with_alpha_beta`, with an explicit recursion-depth budget
`fuel` (the Python recursion has none; any `fuel` strictly above the number
of empty cells is proven sufficient, see `search_terminates_depth_bound`).
Terminal positions return their cached value; PlayerOne maximizes over the
successors for PlayerOne, PlayerTwo minimizes over the successors for
PlayerTwo. -/
def minimax_with_alpha_beta (fuel : Nat) :
    BoardState → XV → XV → Player → Option XV :=
  Nat.rec (motive := fun _ => BoardState → XV → XV → Player → Option XV)
    (fun _ _ _ _ => none)
    (fun _ rec s alpha beta player =>
      match s.value with
      | some v => some (XV.num v)
      | none =>
        match player with
        | .one => abMaxLoop rec (get_valid_board_states s .one) alpha beta
        | .two => abMinLoop rec (get_valid_board_states s .two) alpha beta)
    fuel

/-- `minimax`: the alpha-beta search from the full window
`(float('-inf'), float('inf'))`, with sufficient fuel. -/
def minimax (s : BoardState) (player : Player) : Option XV :=
  minimax_with_alpha_beta (countEmpty s.board + 1) s .negInf .posInf player

/-- Maximum of the full-width values of a list of states (PlayerTwo to move
in each, evaluated by `rec`), starting from `-inf`. -/
def plainMaxList (rec : BoardState → Player → Option XV) :
    List BoardState → Option XV
  | [] => some XV.negInf
  | t :: rest =>
    match rec t .two, plainMaxList rec rest with
    | some v, some w => some (max v w)
    | _, _ => none

/-- Minimum of the full-width values of a list of states (PlayerOne to move
in each, evaluated by `rec`), starting from `+inf`. -/
def plainMinList (rec : BoardState → Player → Option XV) :
    List BoardState → Option XV
  | [] => some XV.posInf
  | t :: rest =>
    match rec t .one, plainMinList rec rest with
    | some v, some w => some (min v w)
    | _, _ => none

/-- Reference full-width minimax, following the spec: the value a player can
guarantee with optimal play, with no pruning.  Terminal positions return
their cached value; otherwise the maximum (for PlayerOne) or minimum (for
PlayerTwo) of the opposing-player values of all successors. -/
def minimaxPlain : Nat → BoardState → Player → Option XV
  | 0, _, _ => none
  | fuel + 1, s, player =>
    match s.value with
    | some v => some (XV.num v)
    | none =>
      match player with
      | .one => plainMaxList (minimaxPlain fuel) (get_valid_board_states s .one)
      | .two => plainMinList (minimaxPlain fuel) (get_valid_board_states s .two)

/-- One step of the computer-move loop of `play_tic_tac_toe`: keep the
successor strictly improving (below) the best value seen so far. -/
def select_step (acc : Option BoardState × XV) (t : BoardState) :
    Option BoardState × XV :=
  match minimax t Player.one with
  | none => acc
  | some v => if v < acc.2 then (some t, v) else acc

/-- The computer's move selection in `play_tic_tac_toe`: over the successors
for PlayerTwo, starting from `best_value = float('inf')`, keep the first
successor strictly below the running best value. -/
def play_selection (s : BoardState) : Option BoardState :=
  ((get_valid_board_states s Player.two).foldl select_step
    (none, XV.posInf)).1

/-- The value the driver loop compares: `minimax(t, PLAYER_ONE)` (always
defined, see `minimax_isSome`). -/
def driverValue (t : BoardState) : XV :=
  (minimax t Player.one).getD XV.negInf

/-! ### Basic unfolding equations for the engine -/

theorem checkRows_nil : checkRows [] = none := rfl

theorem checkRows_cons (row : List Cell) (rest : Grid) :
    checkRows (row :: rest) =
      if lall (markb Player.one) row then some 1
      else if lall (markb Player.two) row then some (-1)
      else checkRows rest := rfl

theorem checkCols_nil (b : Grid) : checkCols b [] = none := rfl

theorem checkCols_cons (b : Grid) (i : Nat) (rest : List Nat) :
    checkCols b (i :: rest) =
      if colAll b i Player.one then some 1
      else if colAll b i Player.two then some (-1)
      else checkCols b rest := rfl

theorem abMaxLoop_nil (rec : BoardState → XV → XV → Player → Option XV)
    (alpha beta : XV) : abMaxLoop rec [] alpha beta = some alpha := rfl

theorem abMaxLoop_cons (rec : BoardState → XV → XV → Player → Option XV)
    (t : BoardState) (rest : List BoardState) (alpha beta : XV) :
    abMaxLoop rec (t :: rest) alpha beta =
      match rec t alpha beta .two with
      | none => none
      | some v =>
        if XV.leb beta (XV.maxv alpha v) then some (XV.maxv alpha v)
        else abMaxLoop rec rest (XV.maxv alpha v) beta := rfl

theorem abMinLoop_nil (rec : BoardState → XV → XV → Player → Option XV)
    (alpha beta : XV) : abMinLoop rec [] alpha beta = some beta := rfl

theorem abMinLoop_cons (rec : BoardState → XV → XV → Player → Option XV)
    (t : BoardState) (rest : List BoardState) (alpha beta : XV) :
    abMinLoop rec (t :: rest) alpha beta =
      match rec t alpha beta .one with
      | none => none
      | some v =>
        if XV.leb (XV.minv beta v) alpha then some (XV.minv beta v)
        else abMinLoop rec rest alpha (XV.minv beta v) := rfl

theorem minimax_with_alpha_beta_zero (s : BoardState) (alpha beta : XV)
    (player : Player) :
    minimax_with_alpha_beta 0 s alpha beta player = none := rfl

theorem minimax_with_alpha_beta_succ (fuel : Nat) (s : BoardState)
    (alpha beta : XV) (player : Player) :
    minimax_with_alpha_beta (fuel + 1) s alpha beta player =
      match s.value with
      | some v => some (XV.num v)
      | none =>
        match player with
        | .one => abMaxLoop (minimax_with_alpha_beta fuel)
            (get_valid_board_states s .one) alpha beta
        | .two => abMinLoop (minimax_with_alpha_beta fuel)
            (get_valid_board_states s .two) alpha beta := rfl

theorem make_move_at_board (s : BoardState) (r c : Nat) (p : Player) :
    (make_move_at s r c p).board =
      s.board.set r ((s.board.getD r []).set c (some p)) := by
  show lset s.board r (lset (lgetD s.board r []) c (some p)) = _
  rw [lset_eq, lset_eq, lgetD_eq]

theorem make_move_at_value (s : BoardState) (r c : Nat) (p : Player) :
    (make_move_at s r c p).value = update_value (make_move_at s r c p).board :=
  rfl

/-! ### `getD`/`set` helpers -/

theorem getD_set_self {γ : Type} (l : List γ) (i : Nat) (x d : γ)
    (h : i < l.length) : (l.set i x).getD i d = x := by
  simp [List.getD_eq_getElem?_getD, List.getElem?_set_self h]

theorem getD_set_ne {γ : Type} (l : List γ) (i k : Nat) (x d : γ)
    (h : i ≠ k) : (l.set i x).getD k d = l.getD k d := by
  simp [List.getD_eq_getElem?_getD, List.getElem?_set_ne h]

theorem cellAt_make_move_at_self (s : BoardState) (r c : Nat) (p : Player)
    (hr : r < s.board.length) (hc : c < (s.board.getD r []).length) :
    cellAt (make_move_at s r c p).board r c = some p := by
  rw [cellAt_eq, make_move_at_board, getD_set_self _ _ _ _ hr,
    getD_set_self _ _ _ _ hc]

theorem cellAt_make_move_at_ne (s : BoardState) (r c : Nat) (p : Player)
    (i j : Nat) (hij : (i, j) ≠ (r, c)) :
    cellAt (make_move_at s r c p).board i j = cellAt s.board i j := by
  rw [cellAt_eq, cellAt_eq, make_move_at_board]
  by_cases hi : r = i
  · subst hi
    have hj : c ≠ j := by
      intro hj
      exact hij (by rw [hj])
    by_cases hr : r < s.board.length
    · rw [getD_set_self _ _ _ _ hr, getD_set_ne _ _ _ _ _ hj]
    · rw [List.set_eq_of_length_le (by omega)]
  · rw [getD_set_ne _ _ _ _ _ hi]

/-! ### Successor characterization -/

/-- The coordinates of the empty cells, in the row-major scan order of
`get_valid_board_states`. -/
def emptyPositions (b : Grid) : List (Nat × Nat) :=
  (List.range b.length).flatMap fun i =>
    ((List.range (b.getD i []).length).filter fun j =>
      emptyb (cellAt b i j)).map fun j => (i, j)

theorem get_valid_board_states_eq (s : BoardState) (p : Player) :
    get_valid_board_states s p =
      (List.range s.board.length).flatMap fun i =>
        ((List.range (s.board.getD i []).length).filter fun j =>
          emptyb (cellAt s.board i j)).map fun j => make_move_at s i j p := by
  show lflatMap _ _ = _
  rw [lflatMap_eq, lrange_eq, llen_eq]
  congr 1
  funext i
  rw [lmap_eq, lfilter_eq, lrange_eq, llen_eq, lgetD_eq]

theorem get_valid_board_states_eq_map (s : BoardState) (p : Player) :
    get_valid_board_states s p =
      (emptyPositions s.board).map fun ij => make_move_at s ij.1 ij.2 p := by
  rw [get_valid_board_states_eq]
  unfold emptyPositions
  rw [List.map_flatMap]
  congr 1
  funext i
  rw [List.map_map]
  rfl

theorem emptyb_true {c : Cell} : emptyb c = true ↔ c = none := by
  cases c <;> simp [emptyb]

theorem markb_true {p : Player} {c : Cell} : markb p c = true ↔ c = some p := by
  rw [markb_eq]
  simp

theorem range_filter_length {γ : Type} (q : γ → Bool) (d : γ) (l : List γ) :
    ((List.range l.length).filter fun j => q (l.getD j d)).length =
      l.countP q := by
  induction l with
  | nil => rfl
  | cons a as ih =>
    rw [List.length_cons, List.range_succ_eq_map, List.filter_cons,
      List.filter_map]
    have hcomp : ((fun j => q ((a :: as).getD j d)) ∘ Nat.succ) =
        fun j => q (as.getD j d) := by
      funext j
      simp [List.getD_cons_succ]
    rw [hcomp]
    simp only [List.getD_eq_getElem?_getD] at ih
    cases hqa : q a <;>
      simp [List.countP_cons, hqa, ih]

theorem range_getD_map {γ : Type} (b : Grid) (f : List Cell → γ) :
    ((List.range b.length).map fun i => f (b.getD i [])) = b.map f := by
  induction b with
  | nil => rfl
  | cons r rest ih =>
    rw [List.length_cons, List.range_succ_eq_map, List.map_cons,
      List.map_map, List.map_cons]
    have hcomp : ((fun i => f ((r :: rest).getD i [])) ∘ Nat.succ) =
        fun i => f (rest.getD i []) := by
      funext i
      simp [List.getD_cons_succ]
    rw [hcomp, ih]
    rfl

theorem length_emptyPositions (b : Grid) :
    (emptyPositions b).length = countEmpty b := by
  unfold emptyPositions countEmpty
  rw [lsum_eq, lmap_eq, List.length_flatMap]
  have h1 : ∀ i, (((List.range (b.getD i []).length).filter fun j =>
      emptyb (cellAt b i j)).map fun j => (i, j)).length =
      (b.getD i []).countP emptyb := by
    intro i
    rw [List.length_map]
    have heq : (fun j => emptyb (cellAt b i j)) =
        fun j => emptyb ((b.getD i []).getD j none) := by
      funext j
      rw [cellAt_eq]
    rw [heq, range_filter_length]
  simp only [Function.comp_def, h1]
  rw [range_getD_map]
  congr 1
  apply List.map_congr_left
  intro row _
  rw [lcountP_eq]

theorem length_get_valid_board_states (s : BoardState) (p : Player) :
    (get_valid_board_states s p).length = countEmpty s.board := by
  rw [get_valid_board_states_eq_map, List.length_map, length_emptyPositions]

/-- Row-major order on cell coordinates. -/
def rmLt (a b : Nat × Nat) : Prop :=
  a.1 < b.1 ∨ (a.1 = b.1 ∧ a.2 < b.2)

theorem flatRange_pairwise (f : Nat → List (Nat × Nat))
    (hfst : ∀ i x, x ∈ f i → x.1 = i)
    (hpair : ∀ i, (f i).Pairwise rmLt) :
    ∀ n, ((List.range n).flatMap f).Pairwise rmLt := by
  intro n
  induction n with
  | zero => simp
  | succ k ih =>
    rw [List.range_succ, List.flatMap_append, List.pairwise_append]
    refine ⟨ih, by simpa using hpair k, ?_⟩
    intro x hx y hy
    rw [List.mem_flatMap] at hx
    obtain ⟨i, hi, hxi⟩ := hx
    rw [List.mem_range] at hi
    have hx1 : x.1 = i := hfst i x hxi
    have hy1 : y.1 = k := by
      simp only [List.flatMap_cons, List.flatMap_nil, List.append_nil] at hy
      exact hfst k y hy
    exact Or.inl (by omega)

theorem emptyPositions_pairwise (b : Grid) :
    (emptyPositions b).Pairwise rmLt := by
  apply flatRange_pairwise
  · intro i x hx
    rw [List.mem_map] at hx
    obtain ⟨j, _, hj⟩ := hx
    rw [← hj]
  · intro i
    apply List.Pairwise.map
    · intro a c hac
      exact Or.inr ⟨rfl, hac⟩
    · exact (List.pairwise_lt_range _).filter _

theorem mem_emptyPositions {b : Grid} {ij : Nat × Nat} :
    ij ∈ emptyPositions b ↔
      ij.1 < b.length ∧ ij.2 < (b.getD ij.1 []).length ∧
        cellAt b ij.1 ij.2 = none := by
  unfold emptyPositions
  rw [List.mem_flatMap]
  constructor
  · rintro ⟨i, hi, hij⟩
    rw [List.mem_range] at hi
    rw [List.mem_map] at hij
    obtain ⟨j, hj, rfl⟩ := hij
    rw [List.mem_filter, List.mem_range] at hj
    exact ⟨hi, hj.1, emptyb_true.mp hj.2⟩
  · rintro ⟨h1, h2, h3⟩
    refine ⟨ij.1, List.mem_range.mpr h1, List.mem_map.mpr
      ⟨ij.2, List.mem_filter.mpr ⟨List.mem_range.mpr h2, emptyb_true.mpr h3⟩,
        rfl⟩⟩

/-! ### `make_move` and `pyIdx` -/

theorem pyIdx_coe_lt {n m : Nat} (h : m < n) : pyIdx n (m : Int) = some m := by
  unfold pyIdx
  have h0 : ¬((m : Int) < 0) := by omega
  rw [if_neg h0]
  have h1 : (0 : Int) ≤ (m : Int) ∧ (m : Int) < (n : Int) := by
    constructor <;> omega
  rw [if_pos h1]
  simp

theorem pyIdx_none {n : Nat} {i : Int} (h : i < -(n : Int) ∨ (n : Int) ≤ i) :
    pyIdx n i = none := by
  unfold pyIdx
  by_cases hi : i < 0
  · rw [if_pos hi, if_neg]
    omega
  · rw [if_neg hi, if_neg]
    omega

theorem pyIdx_some_lt {n : Nat} {i : Int} {k : Nat} (h : pyIdx n i = some k) :
    k < n := by
  unfold pyIdx at h
  by_cases hi : i < 0
  · rw [if_pos hi] at h
    by_cases hcond : (0 : Int) ≤ i + n ∧ i + n < n
    · rw [if_pos hcond] at h
      injection h with h2
      omega
    · rw [if_neg hcond] at h
      exact absurd h (by simp)
  · rw [if_neg hi] at h
    by_cases hcond : (0 : Int) ≤ i ∧ i < n
    · rw [if_pos hcond] at h
      injection h with h2
      omega
    · rw [if_neg hcond] at h
      exact absurd h (by simp)

theorem make_move_coe (s : BoardState) (r c : Nat) (p : Player)
    (hr : r < s.board.length) (hc : c < (s.board.getD r []).length) :
    make_move s ((r : Int), (c : Int)) p = some (make_move_at s r c p) := by
  unfold make_move
  rw [llen_eq]
  rw [pyIdx_coe_lt hr]
  show (match pyIdx (llen (lgetD s.board r [])) (c : Int) with
    | none => none
    | some column => some (make_move_at s r column p)) = _
  rw [llen_eq, lgetD_eq, pyIdx_coe_lt hc]

/-- The grid is a well-formed `n` by `n` square. -/
def squareWF (b : Grid) (n : Nat) : Prop :=
  b.length = n ∧ ∀ row ∈ b, row.length = n

/-! ### Claim theorems: board-state operations -/

/-- Claim C5: for every board state with exactly `k` empty cells and every
player, `get_valid_board_states` returns exactly `k` states; they are the
states obtained by placing the player's mark on each empty cell, listed in
row-major order (strictly ascending row, then column); each returned state
has the player's mark at its move cell, which was empty in the parent, and
every other cell unchanged. -/
theorem successors_characterization (s : BoardState) (p : Player) :
    (get_valid_board_states s p).length = countEmpty s.board ∧
    get_valid_board_states s p =
      (emptyPositions s.board).map (fun ij => make_move_at s ij.1 ij.2 p) ∧
    (emptyPositions s.board).Pairwise rmLt ∧
    ∀ ij ∈ emptyPositions s.board,
      cellAt s.board ij.1 ij.2 = none ∧
      cellAt (make_move_at s ij.1 ij.2 p).board ij.1 ij.2 = some p ∧
      ∀ i j, (i, j) ≠ ij →
        cellAt (make_move_at s ij.1 ij.2 p).board i j = cellAt s.board i j := by
  refine ⟨length_get_valid_board_states s p, get_valid_board_states_eq_map s p,
    emptyPositions_pairwise s.board, ?_⟩
  intro ij hij
  obtain ⟨h1, h2, h3⟩ := mem_emptyPositions.mp hij
  exact ⟨h3, cellAt_make_move_at_self s ij.1 ij.2 p h1 h2,
    fun i j hne => cellAt_make_move_at_ne s ij.1 ij.2 p i j hne⟩

theorem successors_characterization_witness :
    cellAt (make_move_at (initialState 2) 0 1 Player.one).board 0 1 =
      some Player.one :=
  (((successors_characterization (initialState 2) Player.one).2.2.2 (0, 1)
    (by decide)).2.1)

/-- Claim C6: applying `make_move` at an in-bounds empty cell succeeds and
yields a state with the player's mark at that cell, every other cell
unchanged, and the classification recomputed over the full resulting grid. -/
theorem make_move_frame (s : BoardState) (r c : Nat) (p : Player)
    (hr : r < s.board.length) (hc : c < (s.board.getD r []).length)
    (he : cellAt s.board r c = none) :
    ∃ t, make_move s ((r : Int), (c : Int)) p = some t ∧
      cellAt t.board r c = some p ∧
      (∀ i j, (i, j) ≠ (r, c) → cellAt t.board i j = cellAt s.board i j) ∧
      t.value = update_value t.board :=
  ⟨make_move_at s r c p, make_move_coe s r c p hr hc,
    cellAt_make_move_at_self s r c p hr hc,
    fun i j hne => cellAt_make_move_at_ne s r c p i j hne,
    make_move_at_value s r c p⟩

theorem make_move_frame_witness :
    ∃ t, make_move (initialState 3) ((1 : Int), (2 : Int)) Player.two =
        some t ∧
      cellAt t.board 1 2 = some Player.two ∧
      (∀ i j, (i, j) ≠ (1, 2) → cellAt t.board i j =
        cellAt (initialState 3).board i j) ∧
      t.value = update_value t.board :=
  make_move_frame (initialState 3) 1 2 Player.two (by decide) (by decide)
    (by decide)

/-- Claim C10: `make_move` at an in-bounds cell already occupied by a mark
does not signal an error: it overwrites the cell with the new player's mark,
leaves every other cell unchanged, and recomputes the classification. -/
theorem make_move_overwrites_occupied (s : BoardState) (r c : Nat)
    (p q : Player) (hr : r < s.board.length)
    (hc : c < (s.board.getD r []).length)
    (he : cellAt s.board r c = some q) :
    ∃ t, make_move s ((r : Int), (c : Int)) p = some t ∧
      cellAt t.board r c = some p ∧
      (∀ i j, (i, j) ≠ (r, c) → cellAt t.board i j = cellAt s.board i j) ∧
      t.value = update_value t.board :=
  ⟨make_move_at s r c p, make_move_coe s r c p hr hc,
    cellAt_make_move_at_self s r c p hr hc,
    fun i j hne => cellAt_make_move_at_ne s r c p i j hne,
    make_move_at_value s r c p⟩

theorem make_move_overwrites_occupied_witness :
    ∃ t, make_move (make_move_at (initialState 3) 0 0 Player.one)
        ((0 : Int), (0 : Int)) Player.two = some t ∧
      cellAt t.board 0 0 = some Player.two ∧
      (∀ i j, (i, j) ≠ (0, 0) → cellAt t.board i j =
        cellAt (make_move_at (initialState 3) 0 0 Player.one).board i j) ∧
      t.value = update_value t.board :=
  make_move_overwrites_occupied (make_move_at (initialState 3) 0 0 Player.one)
    0 0 Player.two Player.one (by decide) (by decide) (by decide)

/-- Claim C8, counterexample: on the empty 3 by 3 board, the out-of-range
row index `-1` does not raise: Python's negative indexing aliases it to row
`2`, and the move is applied there. -/
theorem make_move_negative_index_no_error :
    make_move (initialState 3) (-1, 0) Player.one =
      some (make_move_at (initialState 3) 2 0 Player.one) ∧
    cellAt (make_move_at (initialState 3) 2 0 Player.one).board 2 0 =
      some Player.one := by
  constructor
  · rfl
  · decide

/-- Claim C8 (amended): on a square `n` by `n` board, `make_move` signals
`IndexError` (returns `none`, mutating nothing) exactly when an index falls
outside Python's accepted range `[-n, n)`; indices in `[-n, -1]` alias from
the end instead of erroring. -/
theorem make_move_out_of_bounds_none (s : BoardState) (n : Nat)
    (hwf : squareWF s.board n) (row col : Int) (p : Player)
    (h : row < -(n : Int) ∨ (n : Int) ≤ row ∨
      col < -(n : Int) ∨ (n : Int) ≤ col) :
    make_move s (row, col) p = none := by
  unfold make_move
  rw [llen_eq, hwf.1]
  rcases h with h | h | h | h
  · rw [pyIdx_none (Or.inl h)]
  · rw [pyIdx_none (Or.inr h)]
  all_goals {
    cases hrow : pyIdx n row with
    | none => rfl
    | some r =>
      have hr : r < n := pyIdx_some_lt hrow
      show (match pyIdx (llen (lgetD s.board r [])) col with
        | none => none
        | some column => some (make_move_at s r column p)) = none
      rw [llen_eq, lgetD_eq]
      have hrow_len : (s.board.getD r []).length = n := by
        apply hwf.2
        have : r < s.board.length := by rw [hwf.1]; exact hr
        rw [List.getD_eq_getElem s.board [] this]
        exact List.getElem_mem this
      rw [hrow_len]
      first
      | rw [pyIdx_none (Or.inl h)]
      | rw [pyIdx_none (Or.inr h)]
  }

theorem make_move_out_of_bounds_none_witness :
    make_move (initialState 3) (1, 3) Player.one = none :=
  make_move_out_of_bounds_none (initialState 3) 3
    ⟨by decide, by decide⟩ 1 3 Player.one (by norm_num)

/-- A decided but non-full board: PlayerOne holds the top row, six cells
remain empty. -/
def wonState : BoardState :=
  make_move_at (make_move_at (make_move_at (initialState 3) 0 0 Player.one)
    0 1 Player.one) 0 2 Player.one

/-- Claim C3, counterexample: a state whose classification is decided (a win
for PlayerOne) but whose grid still has empty cells; `get_valid_board_states`
ignores the cached classification and returns one successor per empty cell,
not the empty sequence. -/
theorem decided_state_has_successors :
    wonState.value = some 1 ∧
    get_valid_board_states wonState Player.two ≠ [] ∧
    (get_valid_board_states wonState Player.two).length = 6 := by
  refine ⟨by decide, ?_, by decide⟩
  decide

/-- Claim C3 (amended): `get_valid_board_states` returns the empty sequence
for every full grid (no empty cell), for both players; a decided but
non-full state still yields one successor per empty cell (the search checks
the classification before generating successors). -/
theorem successors_empty_of_full (s : BoardState) (p : Player)
    (h : countEmpty s.board = 0) :
    get_valid_board_states s p = [] := by
  have hlen := length_get_valid_board_states s p
  rw [h] at hlen
  exact List.length_eq_zero.mp hlen

/-- A full board with no three-in-a-row: a tie. -/
def fullTieState : BoardState :=
  { board := [[some Player.one, some Player.two, some Player.one],
      [some Player.one, some Player.two, some Player.two],
      [some Player.two, some Player.one, some Player.one]]
    value := some 0 }

theorem successors_empty_of_full_witness :
    get_valid_board_states fullTieState Player.one = [] :=
  successors_empty_of_full fullTieState Player.one (by decide)

/-! ### Claim C2: classification precedence -/

/-- Following the spec: a line is a win for PlayerOne (checked first), else
for PlayerTwo, else nothing. -/
def lineValue (l : List Cell) : Option Int :=
  if l.all fun c => decide (c = some Player.one) then some 1
  else if l.all fun c => decide (c = some Player.two) then some (-1)
  else none

/-- Column `i` of the grid, as a line. -/
def columnOf (b : Grid) (i : Nat) : List Cell :=
  b.map fun row => row.getD i none

/-- The main diagonal, as a line. -/
def mainDiagOf (b : Grid) : List Cell :=
  (List.range b.length).map fun i => cellAt b i i

/-- The anti-diagonal, as a line. -/
def antiDiagOf (b : Grid) : List Cell :=
  (List.range b.length).map fun i => cellAt b (b.length - i - 1) i

/-- The candidate lines in the spec's precedence order: every row, then
every column, then the main diagonal, then the anti-diagonal. -/
def allLines (b : Grid) : List (List Cell) :=
  (b ++ (List.range b.length).map (columnOf b)) ++ [mainDiagOf b, antiDiagOf b]

/-- Modelled from the spec's words for `classify()`: the first line in
precedence order won by a single player decides (PlayerOne's pattern checked
before PlayerTwo's inside `lineValue`); otherwise `Undetermined` if any cell
is empty, else `Tie`. -/
def classifySpec (b : Grid) : Option Int :=
  match (allLines b).findSome? lineValue with
  | some v => some v
  | none =>
    if b.any fun row => row.any fun c => decide (c = none) then none
    else some 0

theorem findSome?_append {γ δ : Type} (f : γ → Option δ) (l₁ l₂ : List γ) :
    List.findSome? f (l₁ ++ l₂) =
      match List.findSome? f l₁ with
      | some v => some v
      | none => List.findSome? f l₂ := by
  induction l₁ with
  | nil => simp
  | cons a as ih =>
    cases h : f a with
    | none =>
      rw [List.cons_append, List.findSome?_cons_of_isNone _ (by simp [h]),
        List.findSome?_cons_of_isNone _ (by simp [h]), ih]
    | some v =>
      rw [List.cons_append, List.findSome?_cons_of_isSome _ (by simp [h]),
        List.findSome?_cons_of_isSome _ (by simp [h]), h]

theorem lall_markb (p : Player) (l : List Cell) :
    lall (markb p) l = l.all fun c => decide (c = some p) := by
  rw [lall_eq]
  congr 1
  funext c
  exact markb_eq p c

theorem checkRows_eq_findSome? (b : Grid) :
    checkRows b = b.findSome? lineValue := by
  induction b with
  | nil => rfl
  | cons row rest ih =>
    rw [checkRows_cons, ih, lall_markb, lall_markb]
    by_cases h1 : row.all fun c => decide (c = some Player.one)
    · rw [if_pos h1,
        List.findSome?_cons_of_isSome _ (by simp [lineValue, h1])]
      simp [lineValue, h1]
    · rw [if_neg h1]
      by_cases h2 : row.all fun c => decide (c = some Player.two)
      · rw [if_pos h2,
          List.findSome?_cons_of_isSome _ (by simp [lineValue, h1, h2])]
        simp [lineValue, h1, h2]
      · rw [if_neg h2,
          List.findSome?_cons_of_isNone _ (by simp [lineValue, h1, h2])]

theorem all_map' {γ δ : Type} (f : γ → δ) (p : δ → Bool) (l : List γ) :
    (l.map f).all p = l.all fun a => p (f a) := by
  induction l with
  | nil => rfl
  | cons a as ih => simp [ih]

theorem colAll_eq (b : Grid) (i : Nat) (p : Player) :
    colAll b i p = (columnOf b i).all fun c => decide (c = some p) := by
  unfold colAll columnOf
  rw [lall_eq, all_map']
  congr 1
  funext row
  show markb p (lgetD row i none) = decide (row.getD i none = some p)
  rw [lgetD_eq, markb_eq]

theorem checkCols_eq_findSome? (b : Grid) (l : List Nat) :
    checkCols b l = (l.map (columnOf b)).findSome? lineValue := by
  induction l with
  | nil => rfl
  | cons i rest ih =>
    rw [checkCols_cons, ih, List.map_cons, colAll_eq, colAll_eq]
    by_cases h1 : (columnOf b i).all fun c => decide (c = some Player.one)
    · rw [if_pos h1,
        List.findSome?_cons_of_isSome _ (by simp [lineValue, h1])]
      simp [lineValue, h1]
    · rw [if_neg h1]
      by_cases h2 : (columnOf b i).all fun c => decide (c = some Player.two)
      · rw [if_pos h2,
          List.findSome?_cons_of_isSome _ (by simp [lineValue, h1, h2])]
        simp [lineValue, h1, h2]
      · rw [if_neg h2,
          List.findSome?_cons_of_isNone _ (by simp [lineValue, h1, h2])]

theorem diagAll_eq (b : Grid) (p : Player) :
    diagAll b p = (mainDiagOf b).all fun c => decide (c = some p) := by
  unfold diagAll mainDiagOf
  rw [lall_eq, lrange_eq, llen_eq, all_map']
  congr 1
  funext i
  show markb p (cellAt b i i) = _
  rw [markb_eq]

theorem antiDiagAll_eq (b : Grid) (p : Player) :
    antiDiagAll b p = (antiDiagOf b).all fun c => decide (c = some p) := by
  unfold antiDiagAll antiDiagOf
  rw [lall_eq, lrange_eq, llen_eq, all_map']
  congr 1
  funext i
  exact markb_eq p _

/-- Claim C2: `update_value` resolves every grid (malformed ones included)
in the spec's exact precedence order: every full row, then every full
column, then the main diagonal, then the anti-diagonal (PlayerOne's pattern
before PlayerTwo's at each check), then `Undetermined` on any empty cell,
else `Tie`. -/
theorem update_value_matches_spec_order (b : Grid) :
    update_value b = classifySpec b := by
  unfold update_value classifySpec
  rw [checkRows_eq_findSome?]
  unfold allLines
  rw [findSome?_append, findSome?_append]
  cases hr : b.findSome? lineValue with
  | some v => rfl
  | none =>
    rw [lrange_eq, llen_eq, checkCols_eq_findSome?]
    cases hc : ((List.range b.length).map (columnOf b)).findSome? lineValue with
    | some v => rfl
    | none =>
      show _ = (match List.findSome? lineValue [mainDiagOf b, antiDiagOf b] with
        | some v => some v
        | none =>
          if b.any fun row => row.any fun c => decide (c = none) then none
          else some 0)
      have hd1 : diagAll b Player.one =
          ((mainDiagOf b).all fun c => decide (c = some Player.one)) :=
        diagAll_eq b Player.one
      have hd2 : diagAll b Player.two =
          ((mainDiagOf b).all fun c => decide (c = some Player.two)) :=
        diagAll_eq b Player.two
      have ha1 : antiDiagAll b Player.one =
          ((antiDiagOf b).all fun c => decide (c = some Player.one)) :=
        antiDiagAll_eq b Player.one
      have ha2 : antiDiagAll b Player.two =
          ((antiDiagOf b).all fun c => decide (c = some Player.two)) :=
        antiDiagAll_eq b Player.two
      rw [hd1, hd2, ha1, ha2]
      have hany : (lany (fun row => lany emptyb row) b) =
          (b.any fun row => row.any fun c => decide (c = none)) := by
        rw [lany_eq]
        congr 1
        funext row
        rw [lany_eq]
        congr 1
        funext c
        exact emptyb_eq c
      rw [hany]
      by_cases h1 : (mainDiagOf b).all fun c => decide (c = some Player.one)
      · rw [if_pos h1, List.findSome?_cons_of_isSome _
          (by simp [lineValue, h1])]
        simp [lineValue, h1]
      · rw [if_neg h1]
        by_cases h2 : (mainDiagOf b).all fun c => decide (c = some Player.two)
        · rw [if_pos h2, List.findSome?_cons_of_isSome _
            (by simp [lineValue, h1, h2])]
          simp [lineValue, h1, h2]
        · rw [if_neg h2, List.findSome?_cons_of_isNone _
            (by simp [lineValue, h1, h2])]
          by_cases h3 : (antiDiagOf b).all fun c =>
            decide (c = some Player.one)
          · rw [if_pos h3, List.findSome?_cons_of_isSome _
              (by simp [lineValue, h3])]
            simp [lineValue, h3]
          · rw [if_neg h3]
            by_cases h4 : (antiDiagOf b).all fun c =>
              decide (c = some Player.two)
            · rw [if_pos h4, List.findSome?_cons_of_isSome _
                (by simp [lineValue, h3, h4])]
              simp [lineValue, h3, h4]
            · rw [if_neg h4, List.findSome?_cons_of_isNone _
                (by simp [lineValue, h3, h4])]
              rfl

/-! ### Termination: each successor has one fewer empty cell -/

theorem mem_get_valid_board_states {s : BoardState} {p : Player}
    {t : BoardState} :
    t ∈ get_valid_board_states s p ↔
      ∃ ij ∈ emptyPositions s.board, t = make_move_at s ij.1 ij.2 p := by
  rw [get_valid_board_states_eq_map, List.mem_map]
  constructor
  · rintro ⟨ij, hij, rfl⟩
    exact ⟨ij, hij, rfl⟩
  · rintro ⟨ij, hij, rfl⟩
    exact ⟨ij, hij, rfl⟩

theorem countEmpty_eq (b : Grid) :
    countEmpty b = (b.map fun row => row.countP emptyb).sum := by
  unfold countEmpty
  rw [lsum_eq, lmap_eq]
  congr 1
  apply List.map_congr_left
  intro row _
  rw [lcountP_eq]

theorem countP_set_one (row : List Cell) (j : Nat) (p : Player)
    (hj : j < row.length) (hempty : row.getD j none = none) :
    (row.set j (some p)).countP emptyb + 1 = row.countP emptyb := by
  induction row generalizing j with
  | nil => simp at hj
  | cons a as ih =>
    cases j with
    | zero =>
      have ha : a = none := hempty
      subst ha
      simp [List.countP_cons, emptyb]
    | succ m =>
      have hm : m < as.length := by simpa using hj
      have hem : as.getD m none = none := by simpa using hempty
      rw [List.set_cons_succ]
      rw [List.countP_cons, List.countP_cons]
      have := ih m hm hem
      omega

theorem countEmpty_set_row (b : Grid) (i : Nat) (r' : List Cell)
    (hi : i < b.length) :
    countEmpty (b.set i r') + (b.getD i []).countP emptyb =
      countEmpty b + r'.countP emptyb := by
  induction b generalizing i with
  | nil => simp at hi
  | cons row rest ih =>
    cases i with
    | zero =>
      simp only [List.set_cons_zero]
      rw [countEmpty_eq, countEmpty_eq]
      simp only [List.map_cons, List.sum_cons, List.getD_cons_zero]
      omega
    | succ m =>
      have hm : m < rest.length := by simpa using hi
      have hrec := ih m hm
      rw [countEmpty_eq, countEmpty_eq] at hrec
      rw [List.set_cons_succ, countEmpty_eq, countEmpty_eq]
      simp only [List.map_cons, List.sum_cons, List.getD_cons_succ]
      omega

theorem countEmpty_make_move_at {s : BoardState} {i j : Nat} {p : Player}
    (hij : (i, j) ∈ emptyPositions s.board) :
    countEmpty (make_move_at s i j p).board + 1 = countEmpty s.board := by
  obtain ⟨h1, h2, h3⟩ := mem_emptyPositions.mp hij
  dsimp only at h1 h2 h3
  rw [make_move_at_board]
  have hset := countEmpty_set_row s.board i
    ((s.board.getD i []).set j (some p)) h1
  have hone := countP_set_one (s.board.getD i []) j p h2
    (by rw [← cellAt_eq]; exact h3)
  omega

theorem countEmpty_succ_lt {s : BoardState} {p : Player} {t : BoardState}
    (ht : t ∈ get_valid_board_states s p) :
    countEmpty t.board + 1 = countEmpty s.board := by
  obtain ⟨ij, hij, rfl⟩ := mem_get_valid_board_states.mp ht
  exact countEmpty_make_move_at hij

theorem succ_value_resolved {s : BoardState} {p : Player} {t : BoardState}
    (ht : t ∈ get_valid_board_states s p) :
    t.value = update_value t.board := by
  obtain ⟨ij, hij, rfl⟩ := mem_get_valid_board_states.mp ht
  exact make_move_at_value s ij.1 ij.2 p

/-! ### Fuel sufficiency -/

theorem abMaxLoop_isSome (rec : BoardState → XV → XV → Player → Option XV)
    (l : List BoardState)
    (hrec : ∀ t ∈ l, ∀ alpha beta, (rec t alpha beta .two).isSome) :
    ∀ alpha beta, (abMaxLoop rec l alpha beta).isSome := by
  induction l with
  | nil => intro alpha beta; rw [abMaxLoop_nil]; rfl
  | cons t rest ih =>
    intro alpha beta
    rw [abMaxLoop_cons]
    obtain ⟨v, hv⟩ := Option.isSome_iff_exists.mp
      (hrec t (List.mem_cons_self t rest) alpha beta)
    rw [hv]
    dsimp only
    split
    · rfl
    · exact ih (fun u hu => hrec u (List.mem_cons_of_mem t hu)) _ _

theorem abMinLoop_isSome (rec : BoardState → XV → XV → Player → Option XV)
    (l : List BoardState)
    (hrec : ∀ t ∈ l, ∀ alpha beta, (rec t alpha beta .one).isSome) :
    ∀ alpha beta, (abMinLoop rec l alpha beta).isSome := by
  induction l with
  | nil => intro alpha beta; rw [abMinLoop_nil]; rfl
  | cons t rest ih =>
    intro alpha beta
    rw [abMinLoop_cons]
    obtain ⟨v, hv⟩ := Option.isSome_iff_exists.mp
      (hrec t (List.mem_cons_self t rest) alpha beta)
    rw [hv]
    dsimp only
    split
    · rfl
    · exact ih (fun u hu => hrec u (List.mem_cons_of_mem t hu)) _ _

theorem mwab_isSome :
    ∀ (fuel : Nat) (s : BoardState) (alpha beta : XV) (player : Player),
      countEmpty s.board < fuel →
      (minimax_with_alpha_beta fuel s alpha beta player).isSome := by
  intro fuel
  induction fuel with
  | zero => intro s alpha beta player h; omega
  | succ f ih =>
    intro s alpha beta player h
    rw [minimax_with_alpha_beta_succ]
    cases hv : s.value with
    | some v => rfl
    | none =>
      have hchild : ∀ (q : Player), ∀ t ∈ get_valid_board_states s q,
          countEmpty t.board < f := by
        intro q t ht
        have := countEmpty_succ_lt ht
        omega
      cases player with
      | one =>
        exact abMaxLoop_isSome _ _
          (fun t ht alpha beta => ih t alpha beta .two (hchild .one t ht)) _ _
      | two =>
        exact abMinLoop_isSome _ _
          (fun t ht alpha beta => ih t alpha beta .one (hchild .two t ht)) _ _

theorem minimax_isSome (s : BoardState) (player : Player) :
    (minimax s player).isSome :=
  mwab_isSome (countEmpty s.board + 1) s .negInf .posInf player
    (Nat.lt_succ_self _)

/-! ### Full-width minimax: totality and value range -/

theorem minimaxPlain_zero (s : BoardState) (p : Player) :
    minimaxPlain 0 s p = none := rfl

theorem minimaxPlain_succ (fuel : Nat) (s : BoardState) (p : Player) :
    minimaxPlain (fuel + 1) s p =
      match s.value with
      | some v => some (XV.num v)
      | none =>
        match p with
        | .one => plainMaxList (minimaxPlain fuel)
            (get_valid_board_states s .one)
        | .two => plainMinList (minimaxPlain fuel)
            (get_valid_board_states s .two) := rfl

theorem plainMaxList_nil (rec : BoardState → Player → Option XV) :
    plainMaxList rec [] = some XV.negInf := rfl

theorem plainMaxList_cons (rec : BoardState → Player → Option XV)
    (t : BoardState) (rest : List BoardState) :
    plainMaxList rec (t :: rest) =
      match rec t .two, plainMaxList rec rest with
      | some v, some w => some (max v w)
      | _, _ => none := rfl

theorem plainMinList_nil (rec : BoardState → Player → Option XV) :
    plainMinList rec [] = some XV.posInf := rfl

theorem plainMinList_cons (rec : BoardState → Player → Option XV)
    (t : BoardState) (rest : List BoardState) :
    plainMinList rec (t :: rest) =
      match rec t .one, plainMinList rec rest with
      | some v, some w => some (min v w)
      | _, _ => none := rfl

theorem plainMaxList_isSome (rec : BoardState → Player → Option XV)
    (l : List BoardState) (hrec : ∀ t ∈ l, (rec t .two).isSome) :
    (plainMaxList rec l).isSome := by
  induction l with
  | nil => rfl
  | cons t rest ih =>
    rw [plainMaxList_cons]
    obtain ⟨v, hv⟩ := Option.isSome_iff_exists.mp
      (hrec t (List.mem_cons_self t rest))
    obtain ⟨w, hw⟩ := Option.isSome_iff_exists.mp
      (ih fun u hu => hrec u (List.mem_cons_of_mem t hu))
    rw [hv, hw]
    rfl

theorem plainMinList_isSome (rec : BoardState → Player → Option XV)
    (l : List BoardState) (hrec : ∀ t ∈ l, (rec t .one).isSome) :
    (plainMinList rec l).isSome := by
  induction l with
  | nil => rfl
  | cons t rest ih =>
    rw [plainMinList_cons]
    obtain ⟨v, hv⟩ := Option.isSome_iff_exists.mp
      (hrec t (List.mem_cons_self t rest))
    obtain ⟨w, hw⟩ := Option.isSome_iff_exists.mp
      (ih fun u hu => hrec u (List.mem_cons_of_mem t hu))
    rw [hv, hw]
    rfl

theorem minimaxPlain_isSome :
    ∀ (fuel : Nat) (s : BoardState) (p : Player),
      countEmpty s.board < fuel → (minimaxPlain fuel s p).isSome := by
  intro fuel
  induction fuel with
  | zero => intro s p h; omega
  | succ f ih =>
    intro s p h
    rw [minimaxPlain_succ]
    cases hv : s.value with
    | some v => rfl
    | none =>
      have hchild : ∀ (q : Player), ∀ t ∈ get_valid_board_states s q,
          countEmpty t.board < f := by
        intro q t ht
        have := countEmpty_succ_lt ht
        omega
      cases p with
      | one =>
        exact plainMaxList_isSome _ _
          (fun t ht => ih t .two (hchild .one t ht))
      | two =>
        exact plainMinList_isSome _ _
          (fun t ht => ih t .one (hchild .two t ht))

theorem checkRows_range {b : Grid} {v : Int} (h : checkRows b = some v) :
    v = 1 ∨ v = -1 := by
  induction b with
  | nil => exact absurd h (by rw [checkRows_nil]; simp)
  | cons row rest ih =>
    rw [checkRows_cons] at h
    by_cases h1 : lall (markb Player.one) row
    · rw [if_pos h1] at h
      injection h with h2
      omega
    · rw [if_neg h1] at h
      by_cases h2 : lall (markb Player.two) row
      · rw [if_pos h2] at h
        injection h with h3
        omega
      · rw [if_neg h2] at h
        exact ih h

theorem checkCols_range {b : Grid} {l : List Nat} {v : Int}
    (h : checkCols b l = some v) : v = 1 ∨ v = -1 := by
  induction l with
  | nil => exact absurd h (by rw [checkCols_nil]; simp)
  | cons i rest ih =>
    rw [checkCols_cons] at h
    by_cases h1 : colAll b i Player.one
    · rw [if_pos h1] at h
      injection h with h2
      omega
    · rw [if_neg h1] at h
      by_cases h2 : colAll b i Player.two
      · rw [if_pos h2] at h
        injection h with h3
        omega
      · rw [if_neg h2] at h
        exact ih h

theorem update_value_range {b : Grid} {v : Int}
    (h : update_value b = some v) : v = 1 ∨ v = -1 ∨ v = 0 := by
  unfold update_value at h
  cases hr : checkRows b with
  | some w =>
    rw [hr] at h
    injection h with h2
    rcases checkRows_range hr with h3 | h3 <;> omega
  | none =>
    rw [hr] at h
    cases hc : checkCols b (lrange (llen b)) with
    | some w =>
      rw [hc] at h
      injection h with h2
      rcases checkCols_range hc with h3 | h3 <;> omega
    | none =>
      rw [hc] at h
      dsimp only at h
      repeat' split at h
      all_goals first
        | (injection h with h2; omega)
        | (exact absurd h (by simp))
        | simp_all

theorem update_value_none_has_empty {b : Grid} (h : update_value b = none) :
    lany (fun row => lany emptyb row) b = true := by
  unfold update_value at h
  cases hr : checkRows b with
  | some w => rw [hr] at h; exact absurd h (by simp)
  | none =>
    rw [hr] at h
    cases hc : checkCols b (lrange (llen b)) with
    | some w => rw [hc] at h; exact absurd h (by simp)
    | none =>
      rw [hc] at h
      dsimp only at h
      repeat' split at h
      all_goals first
        | assumption
        | (exact absurd h (by simp))
        | simp_all

theorem emptyPositions_ne_nil {b : Grid}
    (h : lany (fun row => lany emptyb row) b = true) :
    emptyPositions b ≠ [] := by
  rw [lany_eq] at h
  rw [List.any_eq_true] at h
  obtain ⟨row, hrow, hr⟩ := h
  rw [lany_eq, List.any_eq_true] at hr
  obtain ⟨c, hc, hcempty⟩ := hr
  obtain ⟨i, hi, hbi⟩ := List.mem_iff_getElem.mp hrow
  obtain ⟨j, hj, hrj⟩ := List.mem_iff_getElem.mp hc
  have hmem : (i, j) ∈ emptyPositions b := by
    rw [mem_emptyPositions]
    have hgd : b.getD i [] = row := by
      rw [List.getD_eq_getElem b [] hi, hbi]
    refine ⟨hi, by rw [hgd]; exact hj, ?_⟩
    rw [cellAt_eq, hgd, List.getD_eq_getElem row none hj, hrj]
    exact emptyb_true.mp hcempty
  exact List.ne_nil_of_mem hmem

theorem succs_ne_nil {s : BoardState} (p : Player)
    (hres : s.value = update_value s.board) (hnone : s.value = none) :
    get_valid_board_states s p ≠ [] := by
  rw [get_valid_board_states_eq_map]
  have h1 : update_value s.board = none := by rw [← hres, hnone]
  have h2 := emptyPositions_ne_nil (update_value_none_has_empty h1)
  intro hmap
  exact h2 (List.map_eq_nil_iff.mp hmap)

/-! ### `XV` max/min arithmetic -/

theorem max_num_num (a b : Int) :
    max (XV.num a) (XV.num b) = XV.num (max a b) := by
  rcases le_total a b with h | h
  · rw [max_eq_right (XV.num_le_num.mpr h), max_eq_right h]
  · rw [max_eq_left (XV.num_le_num.mpr h), max_eq_left h]

theorem min_num_num (a b : Int) :
    min (XV.num a) (XV.num b) = XV.num (min a b) := by
  rcases le_total a b with h | h
  · rw [min_eq_left (XV.num_le_num.mpr h), min_eq_left h]
  · rw [min_eq_right (XV.num_le_num.mpr h), min_eq_right h]

theorem max_negInf_right (a : XV) : max a XV.negInf = a :=
  max_eq_left (XV.negInf_le a)

theorem min_posInf_right (a : XV) : min a XV.posInf = a :=
  min_eq_left (XV.le_posInf a)

theorem plainMaxList_num (rec : BoardState → Player → Option XV)
    (l : List BoardState) (hl : l ≠ [])
    (hmem : ∀ t ∈ l, ∃ v : Int, rec t .two = some (XV.num v) ∧
      (v = 1 ∨ v = -1 ∨ v = 0)) :
    ∃ v : Int, plainMaxList rec l = some (XV.num v) ∧
      (v = 1 ∨ v = -1 ∨ v = 0) := by
  induction l with
  | nil => exact absurd rfl hl
  | cons t rest ih =>
    obtain ⟨v, hv, hvr⟩ := hmem t (List.mem_cons_self t rest)
    rw [plainMaxList_cons, hv]
    cases rest with
    | nil =>
      rw [plainMaxList_nil]
      exact ⟨v, by dsimp only; rw [max_negInf_right], hvr⟩
    | cons u rest2 =>
      obtain ⟨w, hw, hwr⟩ := ih (by simp)
        (fun x hx => hmem x (List.mem_cons_of_mem t hx))
      rw [hw]
      refine ⟨max v w, by dsimp only; rw [max_num_num], ?_⟩
      rcases max_choice v w with h | h <;> rw [h]
      · exact hvr
      · exact hwr

theorem plainMinList_num (rec : BoardState → Player → Option XV)
    (l : List BoardState) (hl : l ≠ [])
    (hmem : ∀ t ∈ l, ∃ v : Int, rec t .one = some (XV.num v) ∧
      (v = 1 ∨ v = -1 ∨ v = 0)) :
    ∃ v : Int, plainMinList rec l = some (XV.num v) ∧
      (v = 1 ∨ v = -1 ∨ v = 0) := by
  induction l with
  | nil => exact absurd rfl hl
  | cons t rest ih =>
    obtain ⟨v, hv, hvr⟩ := hmem t (List.mem_cons_self t rest)
    rw [plainMinList_cons, hv]
    cases rest with
    | nil =>
      rw [plainMinList_nil]
      exact ⟨v, by dsimp only; rw [min_posInf_right], hvr⟩
    | cons u rest2 =>
      obtain ⟨w, hw, hwr⟩ := ih (by simp)
        (fun x hx => hmem x (List.mem_cons_of_mem t hx))
      rw [hw]
      refine ⟨min v w, by dsimp only; rw [min_num_num], ?_⟩
      rcases min_choice v w with h | h <;> rw [h]
      · exact hvr
      · exact hwr

/-- The plain minimax value of a resolved position is a finite value in
`{1, -1, 0}`. -/
theorem minimaxPlain_num :
    ∀ (fuel : Nat) (s : BoardState) (p : Player),
      countEmpty s.board < fuel → s.value = update_value s.board →
      ∃ v : Int, minimaxPlain fuel s p = some (XV.num v) ∧
        (v = 1 ∨ v = -1 ∨ v = 0) := by
  intro fuel
  induction fuel with
  | zero => intro s p h _; omega
  | succ f ih =>
    intro s p hf hres
    rw [minimaxPlain_succ]
    cases hv : s.value with
    | some v =>
      refine ⟨v, rfl, ?_⟩
      exact update_value_range (by rw [← hres, hv])
    | none =>
      have hchild : ∀ (q : Player), ∀ t ∈ get_valid_board_states s q,
          countEmpty t.board < f := by
        intro q t ht
        have := countEmpty_succ_lt ht
        omega
      cases p with
      | one =>
        exact plainMaxList_num _ _ (succs_ne_nil Player.one hres hv)
          (fun t ht => ih t .two (hchild .one t ht) (succ_value_resolved ht))
      | two =>
        exact plainMinList_num _ _ (succs_ne_nil Player.two hres hv)
          (fun t ht => ih t .one (hchild .two t ht) (succ_value_resolved ht))

/-! ### Alpha-beta correctness against the full-width value -/

/-- Node-level relation between the pruned search and the full-width value
for a window `alpha < beta`: fail-low reports at most `alpha`, fail-high at
least `beta`, and values strictly inside the window are exact. -/
def NodeSpec (f : Nat) : Prop :=
  ∀ (s : BoardState) (p : Player) (alpha beta : XV),
    countEmpty s.board < f → s.value = update_value s.board → alpha < beta →
    ∃ P w, minimaxPlain f s p = some P ∧
      minimax_with_alpha_beta f s alpha beta p = some w ∧
      (P ≤ alpha → w ≤ alpha) ∧ (beta ≤ P → beta ≤ w) ∧
      (alpha < P → P < beta → w = P)

/-- Loop-level relation for the maximizer: against the running maximum `P`
of the children's full-width values, the loop returns `max alpha P` when
`P < beta`, and at least `beta` otherwise. -/
def MaxLoopSpec (f : Nat) : Prop :=
  ∀ (l : List BoardState) (alpha beta : XV),
    (∀ t ∈ l, countEmpty t.board < f ∧ t.value = update_value t.board) →
    alpha < beta →
    ∃ P r, plainMaxList (minimaxPlain f) l = some P ∧
      abMaxLoop (minimax_with_alpha_beta f) l alpha beta = some r ∧
      (P < beta → r = max alpha P) ∧ (beta ≤ P → beta ≤ r)

/-- Loop-level relation for the minimizer, dual to `MaxLoopSpec`. -/
def MinLoopSpec (f : Nat) : Prop :=
  ∀ (l : List BoardState) (alpha beta : XV),
    (∀ t ∈ l, countEmpty t.board < f ∧ t.value = update_value t.board) →
    alpha < beta →
    ∃ P r, plainMinList (minimaxPlain f) l = some P ∧
      abMinLoop (minimax_with_alpha_beta f) l alpha beta = some r ∧
      (alpha < P → r = min beta P) ∧ (P ≤ alpha → r ≤ alpha)

theorem not_leb_of_lt {a b : XV} (h : a < b) : ¬(XV.leb b a = true) := by
  intro hleb
  exact absurd ((XV.le_def b a).mpr hleb) (not_le.mpr h)

theorem abMaxLoop_spec_aux (f : Nat) (hnode : NodeSpec f) : MaxLoopSpec f := by
  intro l
  induction l with
  | nil =>
    intro alpha beta hmem hab
    refine ⟨XV.negInf, alpha, plainMaxList_nil _, abMaxLoop_nil _ _ _,
      fun _ => (max_negInf_right alpha).symm, fun hb => ?_⟩
    exact absurd (lt_of_lt_of_le hab hb)
      (not_lt.mpr (XV.negInf_le alpha))
  | cons t rest ih =>
    intro alpha beta hmem hab
    obtain ⟨hft, hrest⟩ := hmem t (List.mem_cons_self t rest)
    have hrestmem : ∀ u ∈ rest,
        countEmpty u.board < f ∧ u.value = update_value u.board :=
      fun u hu => hmem u (List.mem_cons_of_mem t hu)
    obtain ⟨Pt, w, hPt, hw, c1, c2, c3⟩ := hnode t .two alpha beta hft hrest hab
    obtain ⟨Prest, hPrest⟩ := Option.isSome_iff_exists.mp
      (plainMaxList_isSome _ _
        (fun u hu => minimaxPlain_isSome f u .two (hrestmem u hu).1))
    have hplain : plainMaxList (minimaxPlain f) (t :: rest) =
        some (max Pt Prest) := by
      rw [plainMaxList_cons, hPt, hPrest]
    have hab_eq : abMaxLoop (minimax_with_alpha_beta f) (t :: rest)
        alpha beta =
        if XV.leb beta (max alpha w) then some (max alpha w)
        else abMaxLoop (minimax_with_alpha_beta f) rest (max alpha w) beta := by
      rw [abMaxLoop_cons, hw]
      dsimp only
      rw [XV.maxv_eq]
    rcases le_or_lt Pt alpha with hA | hB1
    · -- fail-low child: alpha is unchanged
      have hwle : w ≤ alpha := c1 hA
      have hmaxw : max alpha w = alpha := max_eq_left hwle
      rw [hmaxw, if_neg (not_leb_of_lt hab)] at hab_eq
      obtain ⟨P2, r, hP2, hr, d1, d2⟩ := ih alpha beta hrestmem hab
      rw [hPrest] at hP2
      injection hP2 with hP2e
      subst hP2e
      refine ⟨max Pt Prest, r, hplain, by rw [hab_eq, hr], ?_, ?_⟩
      · intro hPb
        have hPrb : Prest < beta := lt_of_le_of_lt (le_max_right Pt Prest) hPb
        rw [d1 hPrb]
        have hassoc : max alpha (max Pt Prest) = max alpha Prest := by
          rw [← max_assoc, max_eq_left hA]
        rw [hassoc]
      · intro hbP
        rcases le_max_iff.mp hbP with h | h
        · exact absurd (lt_of_le_of_lt (le_trans h hA) hab) (lt_irrefl beta)
        · exact d2 h
    · rcases lt_or_le Pt beta with hB2 | hC
      · -- exact child: alpha rises to the child's value
        have hwPt : w = Pt := c3 hB1 hB2
        subst hwPt
        have hmaxw : max alpha w = w := max_eq_right (le_of_lt hB1)
        rw [hmaxw, if_neg (not_leb_of_lt hB2)] at hab_eq
        obtain ⟨P2, r, hP2, hr, d1, d2⟩ := ih w beta hrestmem hB2
        rw [hPrest] at hP2
        injection hP2 with hP2e
        subst hP2e
        refine ⟨max w Prest, r, hplain, by rw [hab_eq, hr], ?_, ?_⟩
        · intro hPb
          have hPrb : Prest < beta := lt_of_le_of_lt (le_max_right w Prest) hPb
          rw [d1 hPrb]
          rw [max_eq_right
            (le_trans (le_of_lt hB1) (le_max_left w Prest))]
        · intro hbP
          rcases le_max_iff.mp hbP with h | h
          · exact absurd (lt_of_le_of_lt h hB2) (lt_irrefl beta)
          · exact d2 h
      · -- fail-high child: the loop breaks at once
        have hbw : beta ≤ w := c2 hC
        have hmaxw : max alpha w = w :=
          max_eq_right (le_trans (le_of_lt hab) hbw)
        have hbreak : XV.leb beta (max alpha w) = true := by
          rw [hmaxw]
          exact (XV.le_def beta w).mp hbw
        rw [if_pos hbreak, hmaxw] at hab_eq
        refine ⟨max Pt Prest, w, hplain, hab_eq, ?_, fun _ => hbw⟩
        intro hPb
        exact absurd (lt_of_le_of_lt (le_trans hC (le_max_left Pt Prest)) hPb)
          (lt_irrefl beta)

theorem abMinLoop_spec_aux (f : Nat) (hnode : NodeSpec f) : MinLoopSpec f := by
  intro l
  induction l with
  | nil =>
    intro alpha beta hmem hab
    refine ⟨XV.posInf, beta, plainMinList_nil _, abMinLoop_nil _ _ _,
      fun _ => (min_posInf_right beta).symm, fun hb => ?_⟩
    exact absurd (lt_of_le_of_lt hb hab)
      (not_lt.mpr (XV.le_posInf beta))
  | cons t rest ih =>
    intro alpha beta hmem hab
    obtain ⟨hft, hrest⟩ := hmem t (List.mem_cons_self t rest)
    have hrestmem : ∀ u ∈ rest,
        countEmpty u.board < f ∧ u.value = update_value u.board :=
      fun u hu => hmem u (List.mem_cons_of_mem t hu)
    obtain ⟨Pt, w, hPt, hw, c1, c2, c3⟩ := hnode t .one alpha beta hft hrest hab
    obtain ⟨Prest, hPrest⟩ := Option.isSome_iff_exists.mp
      (plainMinList_isSome _ _
        (fun u hu => minimaxPlain_isSome f u .one (hrestmem u hu).1))
    have hplain : plainMinList (minimaxPlain f) (t :: rest) =
        some (min Pt Prest) := by
      rw [plainMinList_cons, hPt, hPrest]
    have hab_eq : abMinLoop (minimax_with_alpha_beta f) (t :: rest)
        alpha beta =
        if XV.leb (min beta w) alpha then some (min beta w)
        else abMinLoop (minimax_with_alpha_beta f) rest alpha (min beta w) := by
      rw [abMinLoop_cons, hw]
      dsimp only
      rw [XV.minv_eq]
    rcases le_or_lt beta Pt with hA | hB1
    · -- fail-high child: beta is unchanged
      have hwge : beta ≤ w := c2 hA
      have hminw : min beta w = beta := min_eq_left hwge
      rw [hminw, if_neg (not_leb_of_lt hab)] at hab_eq
      obtain ⟨P2, r, hP2, hr, d1, d2⟩ := ih alpha beta hrestmem hab
      rw [hPrest] at hP2
      injection hP2 with hP2e
      subst hP2e
      refine ⟨min Pt Prest, r, hplain, by rw [hab_eq, hr], ?_, ?_⟩
      · intro hPb
        have hPrb : alpha < Prest := lt_of_lt_of_le hPb (min_le_right Pt Prest)
        rw [d1 hPrb]
        have hassoc : min beta (min Pt Prest) = min beta Prest := by
          rw [← min_assoc, min_eq_left hA]
        rw [hassoc]
      · intro hbP
        rcases min_le_iff.mp hbP with h | h
        · exact absurd (lt_of_lt_of_le hab (le_trans hA h)) (lt_irrefl alpha)
        · exact d2 h
    · rcases lt_or_le alpha Pt with hB2 | hC
      · -- exact child: beta falls to the child's value
        have hwPt : w = Pt := c3 hB2 hB1
        subst hwPt
        have hminw : min beta w = w := min_eq_right (le_of_lt hB1)
        rw [hminw, if_neg (not_leb_of_lt hB2)] at hab_eq
        obtain ⟨P2, r, hP2, hr, d1, d2⟩ := ih alpha w hrestmem hB2
        rw [hPrest] at hP2
        injection hP2 with hP2e
        subst hP2e
        refine ⟨min w Prest, r, hplain, by rw [hab_eq, hr], ?_, ?_⟩
        · intro hPb
          have hPrb : alpha < Prest :=
            lt_of_lt_of_le hPb (min_le_right w Prest)
          rw [d1 hPrb]
          rw [min_eq_right
            (le_trans (min_le_left w Prest) (le_of_lt hB1))]
        · intro hbP
          rcases min_le_iff.mp hbP with h | h
          · exact absurd (lt_of_lt_of_le hB2 h) (lt_irrefl alpha)
          · exact d2 h
      · -- fail-low child: the loop breaks at once
        have hbw : w ≤ alpha := c1 hC
        have hminw : min beta w = w :=
          min_eq_right (le_trans hbw (le_of_lt hab))
        have hbreak : XV.leb (min beta w) alpha = true := by
          rw [hminw]
          exact (XV.le_def w alpha).mp hbw
        rw [if_pos hbreak, hminw] at hab_eq
        refine ⟨min Pt Prest, w, hplain, hab_eq, ?_, fun _ => hbw⟩
        intro hPb
        exact absurd (lt_of_lt_of_le hPb (le_trans (min_le_left Pt Prest) hC))
          (lt_irrefl alpha)

theorem ab_spec : ∀ f : Nat, NodeSpec f ∧ MaxLoopSpec f ∧ MinLoopSpec f := by
  intro f
  induction f with
  | zero =>
    have hnode : NodeSpec 0 := by
      intro s p alpha beta h
      omega
    exact ⟨hnode, abMaxLoop_spec_aux 0 hnode, abMinLoop_spec_aux 0 hnode⟩
  | succ f ih =>
    obtain ⟨ihn, ihmax, ihmin⟩ := ih
    have hnode : NodeSpec (f + 1) := by
      intro s p alpha beta hf hres hab
      rw [minimaxPlain_succ, minimax_with_alpha_beta_succ]
      cases hv : s.value with
      | some v =>
        exact ⟨XV.num v, XV.num v, rfl, rfl, id, id, fun _ _ => rfl⟩
      | none =>
        have hchild : ∀ (q : Player), ∀ t ∈ get_valid_board_states s q,
            countEmpty t.board < f ∧ t.value = update_value t.board := by
          intro q t ht
          have := countEmpty_succ_lt ht
          exact ⟨by omega, succ_value_resolved ht⟩
        cases p with
        | one =>
          obtain ⟨P, r, hP, hr, d1, d2⟩ :=
            ihmax (get_valid_board_states s .one) alpha beta (hchild .one) hab
          refine ⟨P, r, hP, hr, ?_, d2, ?_⟩
          · intro hPa
            rw [d1 (lt_of_le_of_lt hPa hab)]
            rw [max_eq_left hPa]
          · intro h1 h2
            rw [d1 h2, max_eq_right (le_of_lt h1)]
        | two =>
          obtain ⟨P, r, hP, hr, d1, d2⟩ :=
            ihmin (get_valid_board_states s .two) alpha beta (hchild .two) hab
          refine ⟨P, r, hP, hr, ?_, ?_, ?_⟩
          · intro hPa
            exact d2 hPa
          · intro hbP
            rw [d1 (lt_of_lt_of_le hab hbP)]
            rw [min_eq_left hbP]
          · intro h1 h2
            rw [d1 h1, min_eq_right (le_of_lt h2)]
    exact ⟨hnode, abMaxLoop_spec_aux (f + 1) hnode,
      abMinLoop_spec_aux (f + 1) hnode⟩

theorem minimax_eq_plain (s : BoardState) (p : Player)
    (hres : s.value = update_value s.board) :
    ∃ v : Int, minimax s p = some (XV.num v) ∧
      minimaxPlain (countEmpty s.board + 1) s p = some (XV.num v) ∧
      (v = 1 ∨ v = -1 ∨ v = 0) := by
  obtain ⟨P, w, hP, hw, c1, c2, c3⟩ := (ab_spec (countEmpty s.board + 1)).1 s p
    XV.negInf XV.posInf (Nat.lt_succ_self _) hres XV.negInf_lt_posInf
  obtain ⟨v, hv, hrange⟩ := minimaxPlain_num (countEmpty s.board + 1) s p
    (Nat.lt_succ_self _) hres
  rw [hv] at hP
  injection hP with hPe
  subst hPe
  have hwP : w = XV.num v := c3 (XV.negInf_lt_num v) (XV.num_lt_posInf v)
  refine ⟨v, ?_, hv, hrange⟩
  show minimax_with_alpha_beta (countEmpty s.board + 1) s .negInf .posInf p =
    some (XV.num v)
  rw [hw, hwP]

/-- Claim C1: for every board state whose classification is resolved and
every player, `minimax` returns exactly one of `{+1, 0, -1}` and equals the
full-width (unpruned) minimax value of the position with that player to
move: the alpha-beta pruning never changes the value returned at the top
level. -/
theorem minimax_returns_true_value (s : BoardState) (p : Player)
    (hres : s.value = update_value s.board) :
    ∃ v : Int, minimax s p = some (XV.num v) ∧
      (v = 1 ∨ v = 0 ∨ v = -1) ∧
      minimaxPlain (countEmpty s.board + 1) s p = some (XV.num v) := by
  obtain ⟨v, h1, h2, h3⟩ := minimax_eq_plain s p hres
  exact ⟨v, h1, by omega, h2⟩

theorem minimax_returns_true_value_witness :
    ∃ v : Int, minimax (initialState 2) Player.one = some (XV.num v) ∧
      (v = 1 ∨ v = 0 ∨ v = -1) ∧
      minimaxPlain (countEmpty (initialState 2).board + 1) (initialState 2)
        Player.one = some (XV.num v) :=
  minimax_returns_true_value (initialState 2) Player.one (by decide)

theorem countP_le_len {γ : Type} (q : γ → Bool) (l : List γ) :
    l.countP q ≤ l.length := by
  induction l with
  | nil => simp
  | cons a as ih =>
    rw [List.countP_cons, List.length_cons]
    by_cases h : q a <;> simp [h] <;> omega

theorem countEmpty_le_square {b : Grid} {n : Nat} (hwf : squareWF b n) :
    countEmpty b ≤ n * n := by
  obtain ⟨hlen, hrows⟩ := hwf
  rw [countEmpty_eq]
  have haux : ∀ (l : Grid), (∀ row ∈ l, row.length = n) →
      (l.map fun row => row.countP emptyb).sum ≤ l.length * n := by
    intro l
    induction l with
    | nil => simp
    | cons row rest ih =>
      intro hmem
      rw [List.map_cons, List.sum_cons, List.length_cons]
      have h1 : row.countP emptyb ≤ n := by
        have := countP_le_len emptyb row
        rw [hmem row (List.mem_cons_self row rest)] at this
        exact this
      have h2 := ih fun u hu => hmem u (List.mem_cons_of_mem row hu)
      have h3 : (rest.length + 1) * n = rest.length * n + n := by ring
      omega
  have := haux b hrows
  rw [hlen] at this
  exact this

/-- Claim C9: the recursive search terminates: any fuel strictly above the
number of empty cells of the initial state suffices (the recursion depth is
bounded by the number of empty cells, which is at most `n * n` on a square
board), because each recursive call is on a successor with exactly one
fewer empty cell. -/
theorem search_terminates_depth_bound (fuel : Nat) (s : BoardState)
    (alpha beta : XV) (player : Player)
    (h : countEmpty s.board < fuel) :
    (minimax_with_alpha_beta fuel s alpha beta player).isSome ∧
    (∀ (q : Player), ∀ t ∈ get_valid_board_states s q,
      countEmpty t.board + 1 = countEmpty s.board) ∧
    ∀ n, squareWF s.board n → countEmpty s.board ≤ n * n :=
  ⟨mwab_isSome fuel s alpha beta player h,
    fun _ t ht => countEmpty_succ_lt ht,
    fun _ hwf => countEmpty_le_square hwf⟩

theorem search_terminates_depth_bound_witness :
    (minimax_with_alpha_beta 5 (initialState 2) XV.negInf XV.posInf
      Player.one).isSome ∧
    (∀ (q : Player), ∀ t ∈ get_valid_board_states (initialState 2) q,
      countEmpty t.board + 1 = countEmpty (initialState 2).board) ∧
    ∀ n, squareWF (initialState 2).board n →
      countEmpty (initialState 2).board ≤ n * n :=
  search_terminates_depth_bound 5 (initialState 2) XV.negInf XV.posInf
    Player.one (by decide)

/-! ### Claim C4: the driver's move selection -/

theorem foldl_select_spec :
    ∀ (l : List BoardState) (b0 : Option BoardState) (w : XV),
      (l.foldl select_step (b0, w) = (b0, w) ∧ ∀ t ∈ l, w ≤ driverValue t) ∨
      (∃ l1 c l2, l = l1 ++ c :: l2 ∧
        l.foldl select_step (b0, w) = (some c, driverValue c) ∧
        driverValue c < w ∧
        (∀ u ∈ l1, driverValue c < driverValue u) ∧
        (∀ u ∈ l2, driverValue c ≤ driverValue u)) := by
  intro l
  induction l with
  | nil =>
    intro b0 w
    left
    exact ⟨rfl, by simp⟩
  | cons t rest ih =>
    intro b0 w
    obtain ⟨v, hv⟩ := Option.isSome_iff_exists.mp (minimax_isSome t Player.one)
    have hdv : driverValue t = v := by
      unfold driverValue
      rw [hv]
      rfl
    have hstep : select_step (b0, w) t =
        if v < w then (some t, v) else (b0, w) := by
      unfold select_step
      rw [hv]
    rw [List.foldl_cons, hstep]
    by_cases hvw : v < w
    · rw [if_pos hvw]
      rcases ih (some t) v with ⟨heq, hall⟩ |
        ⟨l1, c, l2, hsplit, hfold, hlt, hl1, hl2⟩
      · right
        refine ⟨[], t, rest, by simp, ?_, by rw [hdv]; exact hvw, by simp, ?_⟩
        · rw [heq, hdv]
        · intro u hu
          rw [hdv]
          exact hall u hu
      · right
        refine ⟨t :: l1, c, l2, by rw [hsplit, List.cons_append], hfold,
          lt_trans hlt hvw, ?_, hl2⟩
        intro u hu
        rcases List.mem_cons.mp hu with rfl | hu2
        · rw [hdv]
          exact hlt
        · exact hl1 u hu2
    · rw [if_neg hvw]
      rcases ih b0 w with ⟨heq, hall⟩ |
        ⟨l1, c, l2, hsplit, hfold, hlt, hl1, hl2⟩
      · left
        refine ⟨heq, ?_⟩
        intro u hu
        rcases List.mem_cons.mp hu with rfl | hu2
        · rw [hdv]
          exact not_lt.mp hvw
        · exact hall u hu2
      · right
        refine ⟨t :: l1, c, l2, by rw [hsplit, List.cons_append], hfold, hlt,
          ?_, hl2⟩
        intro u hu
        rcases List.mem_cons.mp hu with rfl | hu2
        · rw [hdv]
          exact lt_of_lt_of_le hlt (not_lt.mp hvw)
        · exact hl1 u hu2

theorem driverValue_num {t : BoardState}
    (hres : t.value = update_value t.board) :
    ∃ v : Int, driverValue t = XV.num v := by
  obtain ⟨v, hv, _, _⟩ := minimax_eq_plain t Player.one hres
  refine ⟨v, ?_⟩
  unfold driverValue
  rw [hv]
  rfl

/-- Claim C4: the driver's move selection for PlayerTwo evaluates every
successor with the full-window search for PlayerOne (the opposing player)
and returns the successor with the minimal value; when several successors
share the minimal value, the first in the row-major successor order is
returned (every earlier successor has a strictly larger value). -/
theorem selection_picks_first_minimal (s : BoardState)
    (hne : get_valid_board_states s Player.two ≠ []) :
    ∃ l1 c l2, get_valid_board_states s Player.two = l1 ++ c :: l2 ∧
      play_selection s = some c ∧
      (∀ u ∈ get_valid_board_states s Player.two,
        driverValue c ≤ driverValue u) ∧
      (∀ u ∈ l1, driverValue c < driverValue u) := by
  rcases foldl_select_spec (get_valid_board_states s Player.two) none
    XV.posInf with ⟨heq, hall⟩ | ⟨l1, c, l2, hsplit, hfold, hlt, hl1, hl2⟩
  · exfalso
    cases hl : get_valid_board_states s Player.two with
    | nil => exact hne hl
    | cons t rest =>
      have ht : t ∈ get_valid_board_states s Player.two := by
        rw [hl]
        exact List.mem_cons_self t rest
      obtain ⟨v, hdv⟩ := driverValue_num (succ_value_resolved ht)
      have hge := hall t ht
      rw [hdv] at hge
      exact absurd (lt_of_le_of_lt hge (XV.num_lt_posInf v))
        (lt_irrefl XV.posInf)
  · refine ⟨l1, c, l2, hsplit, ?_, ?_, hl1⟩
    · unfold play_selection
      rw [hfold]
    · intro u hu
      rw [hsplit] at hu
      rcases List.mem_append.mp hu with hu1 | hu2
      · exact le_of_lt (hl1 u hu1)
      · rcases List.mem_cons.mp hu2 with rfl | hu3
        · exact le_refl _
        · exact hl2 u hu3

theorem selection_picks_first_minimal_witness :
    ∃ l1 c l2, get_valid_board_states (make_move_at (initialState 2) 0 0
        Player.one) Player.two = l1 ++ c :: l2 ∧
      play_selection (make_move_at (initialState 2) 0 0 Player.one) =
        some c ∧
      (∀ u ∈ get_valid_board_states (make_move_at (initialState 2) 0 0
        Player.one) Player.two, driverValue c ≤ driverValue u) ∧
      (∀ u ∈ l1, driverValue c < driverValue u) :=
  selection_picks_first_minimal (make_move_at (initialState 2) 0 0 Player.one)
    (by decide)

/-! ### Claim C7: the canonical regression scenario -/

theorem abMaxLoop_step {rec : BoardState → XV → XV → Player → Option XV}
    {t : BoardState} {rest : List BoardState} {alpha beta v alpha2 : XV}
    (h : rec t alpha beta Player.two = some v)
    (he : XV.maxv alpha v = alpha2)
    (hnb : XV.leb beta alpha2 = false) :
    abMaxLoop rec (t :: rest) alpha beta =
      abMaxLoop rec rest alpha2 beta := by
  rw [abMaxLoop_cons, h]
  dsimp only
  rw [he, hnb, if_neg Bool.false_ne_true]

theorem abMaxLoop_brk {rec : BoardState → XV → XV → Player → Option XV}
    {t : BoardState} {rest : List BoardState} {alpha beta v alpha2 : XV}
    (h : rec t alpha beta Player.two = some v)
    (he : XV.maxv alpha v = alpha2)
    (hb : XV.leb beta alpha2 = true) :
    abMaxLoop rec (t :: rest) alpha beta = some alpha2 := by
  rw [abMaxLoop_cons, h]
  dsimp only
  rw [he, hb, if_pos rfl]

theorem abMinLoop_step {rec : BoardState → XV → XV → Player → Option XV}
    {t : BoardState} {rest : List BoardState} {alpha beta v beta2 : XV}
    (h : rec t alpha beta Player.one = some v)
    (he : XV.minv beta v = beta2)
    (hnb : XV.leb beta2 alpha = false) :
    abMinLoop rec (t :: rest) alpha beta =
      abMinLoop rec rest alpha beta2 := by
  rw [abMinLoop_cons, h]
  dsimp only
  rw [he, hnb, if_neg Bool.false_ne_true]

theorem abMinLoop_brk {rec : BoardState → XV → XV → Player → Option XV}
    {t : BoardState} {rest : List BoardState} {alpha beta v beta2 : XV}
    (h : rec t alpha beta Player.one = some v)
    (he : XV.minv beta v = beta2)
    (hb : XV.leb beta2 alpha = true) :
    abMinLoop rec (t :: rest) alpha beta = some beta2 := by
  rw [abMinLoop_cons, h]
  dsimp only
  rw [he, hb, if_pos rfl]

theorem c7n2 :
    minimax_with_alpha_beta 8 (⟨[[some Player.one, some Player.two, none], [none, none, none], [none, none, none]], none⟩ : BoardState)
      XV.negInf XV.posInf Player.one =
      some (XV.num 1) := by
  decide!

theorem c7n3 :
    minimax_with_alpha_beta 8 (⟨[[some Player.one, none, some Player.two], [none, none, none], [none, none, none]], none⟩ : BoardState)
      XV.negInf (XV.num 1) Player.one =
      some (XV.num 1) := by
  decide!

theorem c7n4 :
    minimax_with_alpha_beta 8 (⟨[[some Player.one, none, none], [some Player.two, none, none], [none, none, none]], none⟩ : BoardState)
      XV.negInf (XV.num 1) Player.one =
      some (XV.num 1) := by
  decide!

theorem c7n5 :
    minimax_with_alpha_beta 8 (⟨[[some Player.one, none, none], [none, some Player.two, none], [none, none, none]], none⟩ : BoardState)
      XV.negInf (XV.num 1) Player.one =
      some (XV.num 0) := by
  decide!

theorem c7n6 :
    minimax_with_alpha_beta 8 (⟨[[some Player.one, none, none], [none, none, some Player.two], [none, none, none]], none⟩ : BoardState)
      XV.negInf (XV.num 0) Player.one =
      some (XV.num 0) := by
  decide!

theorem c7n7 :
    minimax_with_alpha_beta 8 (⟨[[some Player.one, none, none], [none, none, none], [some Player.two, none, none]], none⟩ : BoardState)
      XV.negInf (XV.num 0) Player.one =
      some (XV.num 0) := by
  decide!

theorem c7n8 :
    minimax_with_alpha_beta 8 (⟨[[some Player.one, none, none], [none, none, none], [none, some Player.two, none]], none⟩ : BoardState)
      XV.negInf (XV.num 0) Player.one =
      some (XV.num 0) := by
  decide!

theorem c7n9 :
    minimax_with_alpha_beta 8 (⟨[[some Player.one, none, none], [none, none, none], [none, none, some Player.two]], none⟩ : BoardState)
      XV.negInf (XV.num 0) Player.one =
      some (XV.num 0) := by
  decide!

theorem c7n1 :
    minimax_with_alpha_beta 9 (⟨[[some Player.one, none, none], [none, none, none], [none, none, none]], none⟩ : BoardState)
      XV.negInf XV.posInf Player.two =
      some (XV.num 0) := by
  show abMinLoop (minimax_with_alpha_beta 8)
    [(⟨[[some Player.one, some Player.two, none], [none, none, none], [none, none, none]], none⟩ : BoardState),
      (⟨[[some Player.one, none, some Player.two], [none, none, none], [none, none, none]], none⟩ : BoardState),
      (⟨[[some Player.one, none, none], [some Player.two, none, none], [none, none, none]], none⟩ : BoardState),
      (⟨[[some Player.one, none, none], [none, some Player.two, none], [none, none, none]], none⟩ : BoardState),
      (⟨[[some Player.one, none, none], [none, none, some Player.two], [none, none, none]], none⟩ : BoardState),
      (⟨[[some Player.one, none, none], [none, none, none], [some Player.two, none, none]], none⟩ : BoardState),
      (⟨[[some Player.one, none, none], [none, none, none], [none, some Player.two, none]], none⟩ : BoardState),
      (⟨[[some Player.one, none, none], [none, none, none], [none, none, some Player.two]], none⟩ : BoardState)]
    XV.negInf XV.posInf = some (XV.num 0)
  rewrite [abMinLoop_step c7n2
    (Eq.refl (XV.num 1)) rfl]
  rewrite [abMinLoop_step c7n3
    (Eq.refl (XV.num 1)) rfl]
  rewrite [abMinLoop_step c7n4
    (Eq.refl (XV.num 1)) rfl]
  rewrite [abMinLoop_step c7n5
    (Eq.refl (XV.num 0)) rfl]
  rewrite [abMinLoop_step c7n6
    (Eq.refl (XV.num 0)) rfl]
  rewrite [abMinLoop_step c7n7
    (Eq.refl (XV.num 0)) rfl]
  rewrite [abMinLoop_step c7n8
    (Eq.refl (XV.num 0)) rfl]
  rewrite [abMinLoop_step c7n9
    (Eq.refl (XV.num 0)) rfl]
  rfl

theorem c7n12 :
    minimax_with_alpha_beta 7 (⟨[[some Player.two, some Player.one, some Player.one], [none, none, none], [none, none, none]], none⟩ : BoardState)
      (XV.num 0) XV.posInf Player.two =
      some (XV.num 0) := by
  decide!

theorem c7n13 :
    minimax_with_alpha_beta 7 (⟨[[some Player.two, some Player.one, none], [some Player.one, none, none], [none, none, none]], none⟩ : BoardState)
      (XV.num 0) XV.posInf Player.two =
      some (XV.num 0) := by
  decide!

theorem c7n14 :
    minimax_with_alpha_beta 7 (⟨[[some Player.two, some Player.one, none], [none, some Player.one, none], [none, none, none]], none⟩ : BoardState)
      (XV.num 0) XV.posInf Player.two =
      some (XV.num 0) := by
  decide!

theorem c7n15 :
    minimax_with_alpha_beta 7 (⟨[[some Player.two, some Player.one, none], [none, none, some Player.one], [none, none, none]], none⟩ : BoardState)
      (XV.num 0) XV.posInf Player.two =
      some (XV.num 0) := by
  decide!

theorem c7n16 :
    minimax_with_alpha_beta 7 (⟨[[some Player.two, some Player.one, none], [none, none, none], [some Player.one, none, none]], none⟩ : BoardState)
      (XV.num 0) XV.posInf Player.two =
      some (XV.num 0) := by
  decide!

theorem c7n17 :
    minimax_with_alpha_beta 7 (⟨[[some Player.two, some Player.one, none], [none, none, none], [none, some Player.one, none]], none⟩ : BoardState)
      (XV.num 0) XV.posInf Player.two =
      some (XV.num 0) := by
  decide!

theorem c7n18 :
    minimax_with_alpha_beta 7 (⟨[[some Player.two, some Player.one, none], [none, none, none], [none, none, some Player.one]], none⟩ : BoardState)
      (XV.num 0) XV.posInf Player.two =
      some (XV.num 0) := by
  decide!

theorem c7n11 :
    minimax_with_alpha_beta 8 (⟨[[some Player.two, some Player.one, none], [none, none, none], [none, none, none]], none⟩ : BoardState)
      (XV.num 0) XV.posInf Player.one =
      some (XV.num 0) := by
  show abMaxLoop (minimax_with_alpha_beta 7)
    [(⟨[[some Player.two, some Player.one, some Player.one], [none, none, none], [none, none, none]], none⟩ : BoardState),
      (⟨[[some Player.two, some Player.one, none], [some Player.one, none, none], [none, none, none]], none⟩ : BoardState),
      (⟨[[some Player.two, some Player.one, none], [none, some Player.one, none], [none, none, none]], none⟩ : BoardState),
      (⟨[[some Player.two, some Player.one, none], [none, none, some Player.one], [none, none, none]], none⟩ : BoardState),
      (⟨[[some Player.two, some Player.one, none], [none, none, none], [some Player.one, none, none]], none⟩ : BoardState),
      (⟨[[some Player.two, some Player.one, none], [none, none, none], [none, some Player.one, none]], none⟩ : BoardState),
      (⟨[[some Player.two, some Player.one, none], [none, none, none], [none, none, some Player.one]], none⟩ : BoardState)]
    (XV.num 0) XV.posInf = some (XV.num 0)
  rewrite [abMaxLoop_step c7n12
    (Eq.refl (XV.num 0)) rfl]
  rewrite [abMaxLoop_step c7n13
    (Eq.refl (XV.num 0)) rfl]
  rewrite [abMaxLoop_step c7n14
    (Eq.refl (XV.num 0)) rfl]
  rewrite [abMaxLoop_step c7n15
    (Eq.refl (XV.num 0)) rfl]
  rewrite [abMaxLoop_step c7n16
    (Eq.refl (XV.num 0)) rfl]
  rewrite [abMaxLoop_step c7n17
    (Eq.refl (XV.num 0)) rfl]
  rewrite [abMaxLoop_step c7n18
    (Eq.refl (XV.num 0)) rfl]
  rfl

theorem c7n10 :
    minimax_with_alpha_beta 9 (⟨[[none, some Player.one, none], [none, none, none], [none, none, none]], none⟩ : BoardState)
      (XV.num 0) XV.posInf Player.two =
      some (XV.num 0) := by
  show abMinLoop (minimax_with_alpha_beta 8)
    [(⟨[[some Player.two, some Player.one, none], [none, none, none], [none, none, none]], none⟩ : BoardState),
      (⟨[[none, some Player.one, some Player.two], [none, none, none], [none, none, none]], none⟩ : BoardState),
      (⟨[[none, some Player.one, none], [some Player.two, none, none], [none, none, none]], none⟩ : BoardState),
      (⟨[[none, some Player.one, none], [none, some Player.two, none], [none, none, none]], none⟩ : BoardState),
      (⟨[[none, some Player.one, none], [none, none, some Player.two], [none, none, none]], none⟩ : BoardState),
      (⟨[[none, some Player.one, none], [none, none, none], [some Player.two, none, none]], none⟩ : BoardState),
      (⟨[[none, some Player.one, none], [none, none, none], [none, some Player.two, none]], none⟩ : BoardState),
      (⟨[[none, some Player.one, none], [none, none, none], [none, none, some Player.two]], none⟩ : BoardState)]
    (XV.num 0) XV.posInf = some (XV.num 0)
  rewrite [abMinLoop_brk c7n11
    (Eq.refl (XV.num 0)) rfl]
  rfl

theorem c7n20 :
    minimax_with_alpha_beta 8 (⟨[[some Player.two, none, some Player.one], [none, none, none], [none, none, none]], none⟩ : BoardState)
      (XV.num 0) XV.posInf Player.one =
      some (XV.num 1) := by
  decide!

theorem c7n21 :
    minimax_with_alpha_beta 8 (⟨[[none, some Player.two, some Player.one], [none, none, none], [none, none, none]], none⟩ : BoardState)
      (XV.num 0) (XV.num 1) Player.one =
      some (XV.num 1) := by
  decide!

theorem c7n22 :
    minimax_with_alpha_beta 8 (⟨[[none, none, some Player.one], [some Player.two, none, none], [none, none, none]], none⟩ : BoardState)
      (XV.num 0) (XV.num 1) Player.one =
      some (XV.num 1) := by
  decide!

theorem c7n24 :
    minimax_with_alpha_beta 7 (⟨[[some Player.one, none, some Player.one], [none, some Player.two, none], [none, none, none]], none⟩ : BoardState)
      (XV.num 0) (XV.num 1) Player.two =
      some (XV.num 0) := by
  decide!

theorem c7n25 :
    minimax_with_alpha_beta 7 (⟨[[none, some Player.one, some Player.one], [none, some Player.two, none], [none, none, none]], none⟩ : BoardState)
      (XV.num 0) (XV.num 1) Player.two =
      some (XV.num 0) := by
  decide!

theorem c7n26 :
    minimax_with_alpha_beta 7 (⟨[[none, none, some Player.one], [some Player.one, some Player.two, none], [none, none, none]], none⟩ : BoardState)
      (XV.num 0) (XV.num 1) Player.two =
      some (XV.num 0) := by
  decide!

theorem c7n27 :
    minimax_with_alpha_beta 7 (⟨[[none, none, some Player.one], [none, some Player.two, some Player.one], [none, none, none]], none⟩ : BoardState)
      (XV.num 0) (XV.num 1) Player.two =
      some (XV.num 0) := by
  decide!

theorem c7n28 :
    minimax_with_alpha_beta 7 (⟨[[none, none, some Player.one], [none, some Player.two, none], [some Player.one, none, none]], none⟩ : BoardState)
      (XV.num 0) (XV.num 1) Player.two =
      some (XV.num 0) := by
  decide!

theorem c7n29 :
    minimax_with_alpha_beta 7 (⟨[[none, none, some Player.one], [none, some Player.two, none], [none, some Player.one, none]], none⟩ : BoardState)
      (XV.num 0) (XV.num 1) Player.two =
      some (XV.num 0) := by
  decide!

theorem c7n30 :
    minimax_with_alpha_beta 7 (⟨[[none, none, some Player.one], [none, some Player.two, none], [none, none, some Player.one]], none⟩ : BoardState)
      (XV.num 0) (XV.num 1) Player.two =
      some (XV.num 0) := by
  decide!

theorem c7n23 :
    minimax_with_alpha_beta 8 (⟨[[none, none, some Player.one], [none, some Player.two, none], [none, none, none]], none⟩ : BoardState)
      (XV.num 0) (XV.num 1) Player.one =
      some (XV.num 0) := by
  show abMaxLoop (minimax_with_alpha_beta 7)
    [(⟨[[some Player.one, none, some Player.one], [none, some Player.two, none], [none, none, none]], none⟩ : BoardState),
      (⟨[[none, some Player.one, some Player.one], [none, some Player.two, none], [none, none, none]], none⟩ : BoardState),
      (⟨[[none, none, some Player.one], [some Player.one, some Player.two, none], [none, none, none]], none⟩ : BoardState),
      (⟨[[none, none, some Player.one], [none, some Player.two, some Player.one], [none, none, none]], none⟩ : BoardState),
      (⟨[[none, none, some Player.one], [none, some Player.two, none], [some Player.one, none, none]], none⟩ : BoardState),
      (⟨[[none, none, some Player.one], [none, some Player.two, none], [none, some Player.one, none]], none⟩ : BoardState),
      (⟨[[none, none, some Player.one], [none, some Player.two, none], [none, none, some Player.one]], none⟩ : BoardState)]
    (XV.num 0) (XV.num 1) = some (XV.num 0)
  rewrite [abMaxLoop_step c7n24
    (Eq.refl (XV.num 0)) rfl]
  rewrite [abMaxLoop_step c7n25
    (Eq.refl (XV.num 0)) rfl]
  rewrite [abMaxLoop_step c7n26
    (Eq.refl (XV.num 0)) rfl]
  rewrite [abMaxLoop_step c7n27
    (Eq.refl (XV.num 0)) rfl]
  rewrite [abMaxLoop_step c7n28
    (Eq.refl (XV.num 0)) rfl]
  rewrite [abMaxLoop_step c7n29
    (Eq.refl (XV.num 0)) rfl]
  rewrite [abMaxLoop_step c7n30
    (Eq.refl (XV.num 0)) rfl]
  rfl

theorem c7n19 :
    minimax_with_alpha_beta 9 (⟨[[none, none, some Player.one], [none, none, none], [none, none, none]], none⟩ : BoardState)
      (XV.num 0) XV.posInf Player.two =
      some (XV.num 0) := by
  show abMinLoop (minimax_with_alpha_beta 8)
    [(⟨[[some Player.two, none, some Player.one], [none, none, none], [none, none, none]], none⟩ : BoardState),
      (⟨[[none, some Player.two, some Player.one], [none, none, none], [none, none, none]], none⟩ : BoardState),
      (⟨[[none, none, some Player.one], [some Player.two, none, none], [none, none, none]], none⟩ : BoardState),
      (⟨[[none, none, some Player.one], [none, some Player.two, none], [none, none, none]], none⟩ : BoardState),
      (⟨[[none, none, some Player.one], [none, none, some Player.two], [none, none, none]], none⟩ : BoardState),
      (⟨[[none, none, some Player.one], [none, none, none], [some Player.two, none, none]], none⟩ : BoardState),
      (⟨[[none, none, some Player.one], [none, none, none], [none, some Player.two, none]], none⟩ : BoardState),
      (⟨[[none, none, some Player.one], [none, none, none], [none, none, some Player.two]], none⟩ : BoardState)]
    (XV.num 0) XV.posInf = some (XV.num 0)
  rewrite [abMinLoop_step c7n20
    (Eq.refl (XV.num 1)) rfl]
  rewrite [abMinLoop_step c7n21
    (Eq.refl (XV.num 1)) rfl]
  rewrite [abMinLoop_step c7n22
    (Eq.refl (XV.num 1)) rfl]
  rewrite [abMinLoop_brk c7n23
    (Eq.refl (XV.num 0)) rfl]
  rfl

theorem c7n31 :
    minimax_with_alpha_beta 9 (⟨[[none, none, none], [some Player.one, none, none], [none, none, none]], none⟩ : BoardState)
      (XV.num 0) XV.posInf Player.two =
      some (XV.num 0) := by
  decide!

theorem c7n32 :
    minimax_with_alpha_beta 9 (⟨[[none, none, none], [none, some Player.one, none], [none, none, none]], none⟩ : BoardState)
      (XV.num 0) XV.posInf Player.two =
      some (XV.num 0) := by
  decide!

theorem c7n34 :
    minimax_with_alpha_beta 8 (⟨[[some Player.two, none, none], [none, none, some Player.one], [none, none, none]], none⟩ : BoardState)
      (XV.num 0) XV.posInf Player.one =
      some (XV.num 1) := by
  decide!

theorem c7n35 :
    minimax_with_alpha_beta 8 (⟨[[none, some Player.two, none], [none, none, some Player.one], [none, none, none]], none⟩ : BoardState)
      (XV.num 0) (XV.num 1) Player.one =
      some (XV.num 1) := by
  decide!

theorem c7n36 :
    minimax_with_alpha_beta 8 (⟨[[none, none, some Player.two], [none, none, some Player.one], [none, none, none]], none⟩ : BoardState)
      (XV.num 0) (XV.num 1) Player.one =
      some (XV.num 0) := by
  decide!

theorem c7n33 :
    minimax_with_alpha_beta 9 (⟨[[none, none, none], [none, none, some Player.one], [none, none, none]], none⟩ : BoardState)
      (XV.num 0) XV.posInf Player.two =
      some (XV.num 0) := by
  show abMinLoop (minimax_with_alpha_beta 8)
    [(⟨[[some Player.two, none, none], [none, none, some Player.one], [none, none, none]], none⟩ : BoardState),
      (⟨[[none, some Player.two, none], [none, none, some Player.one], [none, none, none]], none⟩ : BoardState),
      (⟨[[none, none, some Player.two], [none, none, some Player.one], [none, none, none]], none⟩ : BoardState),
      (⟨[[none, none, none], [some Player.two, none, some Player.one], [none, none, none]], none⟩ : BoardState),
      (⟨[[none, none, none], [none, some Player.two, some Player.one], [none, none, none]], none⟩ : BoardState),
      (⟨[[none, none, none], [none, none, some Player.one], [some Player.two, none, none]], none⟩ : BoardState),
      (⟨[[none, none, none], [none, none, some Player.one], [none, some Player.two, none]], none⟩ : BoardState),
      (⟨[[none, none, none], [none, none, some Player.one], [none, none, some Player.two]], none⟩ : BoardState)]
    (XV.num 0) XV.posInf = some (XV.num 0)
  rewrite [abMinLoop_step c7n34
    (Eq.refl (XV.num 1)) rfl]
  rewrite [abMinLoop_step c7n35
    (Eq.refl (XV.num 1)) rfl]
  rewrite [abMinLoop_brk c7n36
    (Eq.refl (XV.num 0)) rfl]
  rfl

theorem c7n38 :
    minimax_with_alpha_beta 8 (⟨[[some Player.two, none, none], [none, none, none], [some Player.one, none, none]], none⟩ : BoardState)
      (XV.num 0) XV.posInf Player.one =
      some (XV.num 1) := by
  decide!

theorem c7n39 :
    minimax_with_alpha_beta 8 (⟨[[none, some Player.two, none], [none, none, none], [some Player.one, none, none]], none⟩ : BoardState)
      (XV.num 0) (XV.num 1) Player.one =
      some (XV.num 1) := by
  decide!

theorem c7n40 :
    minimax_with_alpha_beta 8 (⟨[[none, none, some Player.two], [none, none, none], [some Player.one, none, none]], none⟩ : BoardState)
      (XV.num 0) (XV.num 1) Player.one =
      some (XV.num 1) := by
  decide!

theorem c7n41 :
    minimax_with_alpha_beta 8 (⟨[[none, none, none], [some Player.two, none, none], [some Player.one, none, none]], none⟩ : BoardState)
      (XV.num 0) (XV.num 1) Player.one =
      some (XV.num 1) := by
  decide!

theorem c7n43 :
    minimax_with_alpha_beta 7 (⟨[[some Player.one, none, none], [none, some Player.two, none], [some Player.one, none, none]], none⟩ : BoardState)
      (XV.num 0) (XV.num 1) Player.two =
      some (XV.num 0) := by
  decide!

theorem c7n44 :
    minimax_with_alpha_beta 7 (⟨[[none, some Player.one, none], [none, some Player.two, none], [some Player.one, none, none]], none⟩ : BoardState)
      (XV.num 0) (XV.num 1) Player.two =
      some (XV.num 0) := by
  decide!

theorem c7n45 :
    minimax_with_alpha_beta 7 (⟨[[none, none, some Player.one], [none, some Player.two, none], [some Player.one, none, none]], none⟩ : BoardState)
      (XV.num 0) (XV.num 1) Player.two =
      some (XV.num 0) := by
  decide!

theorem c7n46 :
    minimax_with_alpha_beta 7 (⟨[[none, none, none], [some Player.one, some Player.two, none], [some Player.one, none, none]], none⟩ : BoardState)
      (XV.num 0) (XV.num 1) Player.two =
      some (XV.num 0) := by
  decide!

theorem c7n47 :
    minimax_with_alpha_beta 7 (⟨[[none, none, none], [none, some Player.two, some Player.one], [some Player.one, none, none]], none⟩ : BoardState)
      (XV.num 0) (XV.num 1) Player.two =
      some (XV.num 0) := by
  decide!

theorem c7n48 :
    minimax_with_alpha_beta 7 (⟨[[none, none, none], [none, some Player.two, none], [some Player.one, some Player.one, none]], none⟩ : BoardState)
      (XV.num 0) (XV.num 1) Player.two =
      some (XV.num 0) := by
  decide!

theorem c7n49 :
    minimax_with_alpha_beta 7 (⟨[[none, none, none], [none, some Player.two, none], [some Player.one, none, some Player.one]], none⟩ : BoardState)
      (XV.num 0) (XV.num 1) Player.two =
      some (XV.num 0) := by
  decide!

theorem c7n42 :
    minimax_with_alpha_beta 8 (⟨[[none, none, none], [none, some Player.two, none], [some Player.one, none, none]], none⟩ : BoardState)
      (XV.num 0) (XV.num 1) Player.one =
      some (XV.num 0) := by
  show abMaxLoop (minimax_with_alpha_beta 7)
    [(⟨[[some Player.one, none, none], [none, some Player.two, none], [some Player.one, none, none]], none⟩ : BoardState),
      (⟨[[none, some Player.one, none], [none, some Player.two, none], [some Player.one, none, none]], none⟩ : BoardState),
      (⟨[[none, none, some Player.one], [none, some Player.two, none], [some Player.one, none, none]], none⟩ : BoardState),
      (⟨[[none, none, none], [some Player.one, some Player.two, none], [some Player.one, none, none]], none⟩ : BoardState),
      (⟨[[none, none, none], [none, some Player.two, some Player.one], [some Player.one, none, none]], none⟩ : BoardState),
      (⟨[[none, none, none], [none, some Player.two, none], [some Player.one, some Player.one, none]], none⟩ : BoardState),
      (⟨[[none, none, none], [none, some Player.two, none], [some Player.one, none, some Player.one]], none⟩ : BoardState)]
    (XV.num 0) (XV.num 1) = some (XV.num 0)
  rewrite [abMaxLoop_step c7n43
    (Eq.refl (XV.num 0)) rfl]
  rewrite [abMaxLoop_step c7n44
    (Eq.refl (XV.num 0)) rfl]
  rewrite [abMaxLoop_step c7n45
    (Eq.refl (XV.num 0)) rfl]
  rewrite [abMaxLoop_step c7n46
    (Eq.refl (XV.num 0)) rfl]
  rewrite [abMaxLoop_step c7n47
    (Eq.refl (XV.num 0)) rfl]
  rewrite [abMaxLoop_step c7n48
    (Eq.refl (XV.num 0)) rfl]
  rewrite [abMaxLoop_step c7n49
    (Eq.refl (XV.num 0)) rfl]
  rfl

theorem c7n37 :
    minimax_with_alpha_beta 9 (⟨[[none, none, none], [none, none, none], [some Player.one, none, none]], none⟩ : BoardState)
      (XV.num 0) XV.posInf Player.two =
      some (XV.num 0) := by
  show abMinLoop (minimax_with_alpha_beta 8)
    [(⟨[[some Player.two, none, none], [none, none, none], [some Player.one, none, none]], none⟩ : BoardState),
      (⟨[[none, some Player.two, none], [none, none, none], [some Player.one, none, none]], none⟩ : BoardState),
      (⟨[[none, none, some Player.two], [none, none, none], [some Player.one, none, none]], none⟩ : BoardState),
      (⟨[[none, none, none], [some Player.two, none, none], [some Player.one, none, none]], none⟩ : BoardState),
      (⟨[[none, none, none], [none, some Player.two, none], [some Player.one, none, none]], none⟩ : BoardState),
      (⟨[[none, none, none], [none, none, some Player.two], [some Player.one, none, none]], none⟩ : BoardState),
      (⟨[[none, none, none], [none, none, none], [some Player.one, some Player.two, none]], none⟩ : BoardState),
      (⟨[[none, none, none], [none, none, none], [some Player.one, none, some Player.two]], none⟩ : BoardState)]
    (XV.num 0) XV.posInf = some (XV.num 0)
  rewrite [abMinLoop_step c7n38
    (Eq.refl (XV.num 1)) rfl]
  rewrite [abMinLoop_step c7n39
    (Eq.refl (XV.num 1)) rfl]
  rewrite [abMinLoop_step c7n40
    (Eq.refl (XV.num 1)) rfl]
  rewrite [abMinLoop_step c7n41
    (Eq.refl (XV.num 1)) rfl]
  rewrite [abMinLoop_brk c7n42
    (Eq.refl (XV.num 0)) rfl]
  rfl

theorem c7n51 :
    minimax_with_alpha_beta 8 (⟨[[some Player.two, none, none], [none, none, none], [none, some Player.one, none]], none⟩ : BoardState)
      (XV.num 0) XV.posInf Player.one =
      some (XV.num 1) := by
  decide!

theorem c7n53 :
    minimax_with_alpha_beta 7 (⟨[[some Player.one, some Player.two, none], [none, none, none], [none, some Player.one, none]], none⟩ : BoardState)
      (XV.num 0) (XV.num 1) Player.two =
      some (XV.num 0) := by
  decide!

theorem c7n54 :
    minimax_with_alpha_beta 7 (⟨[[none, some Player.two, some Player.one], [none, none, none], [none, some Player.one, none]], none⟩ : BoardState)
      (XV.num 0) (XV.num 1) Player.two =
      some (XV.num 0) := by
  decide!

theorem c7n55 :
    minimax_with_alpha_beta 7 (⟨[[none, some Player.two, none], [some Player.one, none, none], [none, some Player.one, none]], none⟩ : BoardState)
      (XV.num 0) (XV.num 1) Player.two =
      some (XV.num 0) := by
  decide!

theorem c7n56 :
    minimax_with_alpha_beta 7 (⟨[[none, some Player.two, none], [none, some Player.one, none], [none, some Player.one, none]], none⟩ : BoardState)
      (XV.num 0) (XV.num 1) Player.two =
      some (XV.num 0) := by
  decide!

theorem c7n57 :
    minimax_with_alpha_beta 7 (⟨[[none, some Player.two, none], [none, none, some Player.one], [none, some Player.one, none]], none⟩ : BoardState)
      (XV.num 0) (XV.num 1) Player.two =
      some (XV.num 0) := by
  decide!

theorem c7n58 :
    minimax_with_alpha_beta 7 (⟨[[none, some Player.two, none], [none, none, none], [some Player.one, some Player.one, none]], none⟩ : BoardState)
      (XV.num 0) (XV.num 1) Player.two =
      some (XV.num 0) := by
  decide!

theorem c7n59 :
    minimax_with_alpha_beta 7 (⟨[[none, some Player.two, none], [none, none, none], [none, some Player.one, some Player.one]], none⟩ : BoardState)
      (XV.num 0) (XV.num 1) Player.two =
      some (XV.num 0) := by
  decide!

theorem c7n52 :
    minimax_with_alpha_beta 8 (⟨[[none, some Player.two, none], [none, none, none], [none, some Player.one, none]], none⟩ : BoardState)
      (XV.num 0) (XV.num 1) Player.one =
      some (XV.num 0) := by
  show abMaxLoop (minimax_with_alpha_beta 7)
    [(⟨[[some Player.one, some Player.two, none], [none, none, none], [none, some Player.one, none]], none⟩ : BoardState),
      (⟨[[none, some Player.two, some Player.one], [none, none, none], [none, some Player.one, none]], none⟩ : BoardState),
      (⟨[[none, some Player.two, none], [some Player.one, none, none], [none, some Player.one, none]], none⟩ : BoardState),
      (⟨[[none, some Player.two, none], [none, some Player.one, none], [none, some Player.one, none]], none⟩ : BoardState),
      (⟨[[none, some Player.two, none], [none, none, some Player.one], [none, some Player.one, none]], none⟩ : BoardState),
      (⟨[[none, some Player.two, none], [none, none, none], [some Player.one, some Player.one, none]], none⟩ : BoardState),
      (⟨[[none, some Player.two, none], [none, none, none], [none, some Player.one, some Player.one]], none⟩ : BoardState)]
    (XV.num 0) (XV.num 1) = some (XV.num 0)
  rewrite [abMaxLoop_step c7n53
    (Eq.refl (XV.num 0)) rfl]
  rewrite [abMaxLoop_step c7n54
    (Eq.refl (XV.num 0)) rfl]
  rewrite [abMaxLoop_step c7n55
    (Eq.refl (XV.num 0)) rfl]
  rewrite [abMaxLoop_step c7n56
    (Eq.refl (XV.num 0)) rfl]
  rewrite [abMaxLoop_step c7n57
    (Eq.refl (XV.num 0)) rfl]
  rewrite [abMaxLoop_step c7n58
    (Eq.refl (XV.num 0)) rfl]
  rewrite [abMaxLoop_step c7n59
    (Eq.refl (XV.num 0)) rfl]
  rfl

theorem c7n50 :
    minimax_with_alpha_beta 9 (⟨[[none, none, none], [none, none, none], [none, some Player.one, none]], none⟩ : BoardState)
      (XV.num 0) XV.posInf Player.two =
      some (XV.num 0) := by
  show abMinLoop (minimax_with_alpha_beta 8)
    [(⟨[[some Player.two, none, none], [none, none, none], [none, some Player.one, none]], none⟩ : BoardState),
      (⟨[[none, some Player.two, none], [none, none, none], [none, some Player.one, none]], none⟩ : BoardState),
      (⟨[[none, none, some Player.two], [none, none, none], [none, some Player.one, none]], none⟩ : BoardState),
      (⟨[[none, none, none], [some Player.two, none, none], [none, some Player.one, none]], none⟩ : BoardState),
      (⟨[[none, none, none], [none, some Player.two, none], [none, some Player.one, none]], none⟩ : BoardState),
      (⟨[[none, none, none], [none, none, some Player.two], [none, some Player.one, none]], none⟩ : BoardState),
      (⟨[[none, none, none], [none, none, none], [some Player.two, some Player.one, none]], none⟩ : BoardState),
      (⟨[[none, none, none], [none, none, none], [none, some Player.one, some Player.two]], none⟩ : BoardState)]
    (XV.num 0) XV.posInf = some (XV.num 0)
  rewrite [abMinLoop_step c7n51
    (Eq.refl (XV.num 1)) rfl]
  rewrite [abMinLoop_brk c7n52
    (Eq.refl (XV.num 0)) rfl]
  rfl

theorem c7n61 :
    minimax_with_alpha_beta 8 (⟨[[some Player.two, none, none], [none, none, none], [none, none, some Player.one]], none⟩ : BoardState)
      (XV.num 0) XV.posInf Player.one =
      some (XV.num 1) := by
  decide!

theorem c7n62 :
    minimax_with_alpha_beta 8 (⟨[[none, some Player.two, none], [none, none, none], [none, none, some Player.one]], none⟩ : BoardState)
      (XV.num 0) (XV.num 1) Player.one =
      some (XV.num 1) := by
  decide!

theorem c7n63 :
    minimax_with_alpha_beta 8 (⟨[[none, none, some Player.two], [none, none, none], [none, none, some Player.one]], none⟩ : BoardState)
      (XV.num 0) (XV.num 1) Player.one =
      some (XV.num 1) := by
  decide!

theorem c7n64 :
    minimax_with_alpha_beta 8 (⟨[[none, none, none], [some Player.two, none, none], [none, none, some Player.one]], none⟩ : BoardState)
      (XV.num 0) (XV.num 1) Player.one =
      some (XV.num 1) := by
  decide!

theorem c7n66 :
    minimax_with_alpha_beta 7 (⟨[[some Player.one, none, none], [none, some Player.two, none], [none, none, some Player.one]], none⟩ : BoardState)
      (XV.num 0) (XV.num 1) Player.two =
      some (XV.num 0) := by
  decide!

theorem c7n67 :
    minimax_with_alpha_beta 7 (⟨[[none, some Player.one, none], [none, some Player.two, none], [none, none, some Player.one]], none⟩ : BoardState)
      (XV.num 0) (XV.num 1) Player.two =
      some (XV.num 0) := by
  decide!

theorem c7n68 :
    minimax_with_alpha_beta 7 (⟨[[none, none, some Player.one], [none, some Player.two, none], [none, none, some Player.one]], none⟩ : BoardState)
      (XV.num 0) (XV.num 1) Player.two =
      some (XV.num 0) := by
  decide!

theorem c7n69 :
    minimax_with_alpha_beta 7 (⟨[[none, none, none], [some Player.one, some Player.two, none], [none, none, some Player.one]], none⟩ : BoardState)
      (XV.num 0) (XV.num 1) Player.two =
      some (XV.num 0) := by
  decide!

theorem c7n70 :
    minimax_with_alpha_beta 7 (⟨[[none, none, none], [none, some Player.two, some Player.one], [none, none, some Player.one]], none⟩ : BoardState)
      (XV.num 0) (XV.num 1) Player.two =
      some (XV.num 0) := by
  decide!

theorem c7n71 :
    minimax_with_alpha_beta 7 (⟨[[none, none, none], [none, some Player.two, none], [some Player.one, none, some Player.one]], none⟩ : BoardState)
      (XV.num 0) (XV.num 1) Player.two =
      some (XV.num 0) := by
  decide!

theorem c7n72 :
    minimax_with_alpha_beta 7 (⟨[[none, none, none], [none, some Player.two, none], [none, some Player.one, some Player.one]], none⟩ : BoardState)
      (XV.num 0) (XV.num 1) Player.two =
      some (XV.num 0) := by
  decide!

theorem c7n65 :
    minimax_with_alpha_beta 8 (⟨[[none, none, none], [none, some Player.two, none], [none, none, some Player.one]], none⟩ : BoardState)
      (XV.num 0) (XV.num 1) Player.one =
      some (XV.num 0) := by
  show abMaxLoop (minimax_with_alpha_beta 7)
    [(⟨[[some Player.one, none, none], [none, some Player.two, none], [none, none, some Player.one]], none⟩ : BoardState),
      (⟨[[none, some Player.one, none], [none, some Player.two, none], [none, none, some Player.one]], none⟩ : BoardState),
      (⟨[[none, none, some Player.one], [none, some Player.two, none], [none, none, some Player.one]], none⟩ : BoardState),
      (⟨[[none, none, none], [some Player.one, some Player.two, none], [none, none, some Player.one]], none⟩ : BoardState),
      (⟨[[none, none, none], [none, some Player.two, some Player.one], [none, none, some Player.one]], none⟩ : BoardState),
      (⟨[[none, none, none], [none, some Player.two, none], [some Player.one, none, some Player.one]], none⟩ : BoardState),
      (⟨[[none, none, none], [none, some Player.two, none], [none, some Player.one, some Player.one]], none⟩ : BoardState)]
    (XV.num 0) (XV.num 1) = some (XV.num 0)
  rewrite [abMaxLoop_step c7n66
    (Eq.refl (XV.num 0)) rfl]
  rewrite [abMaxLoop_step c7n67
    (Eq.refl (XV.num 0)) rfl]
  rewrite [abMaxLoop_step c7n68
    (Eq.refl (XV.num 0)) rfl]
  rewrite [abMaxLoop_step c7n69
    (Eq.refl (XV.num 0)) rfl]
  rewrite [abMaxLoop_step c7n70
    (Eq.refl (XV.num 0)) rfl]
  rewrite [abMaxLoop_step c7n71
    (Eq.refl (XV.num 0)) rfl]
  rewrite [abMaxLoop_step c7n72
    (Eq.refl (XV.num 0)) rfl]
  rfl

theorem c7n60 :
    minimax_with_alpha_beta 9 (⟨[[none, none, none], [none, none, none], [none, none, some Player.one]], none⟩ : BoardState)
      (XV.num 0) XV.posInf Player.two =
      some (XV.num 0) := by
  show abMinLoop (minimax_with_alpha_beta 8)
    [(⟨[[some Player.two, none, none], [none, none, none], [none, none, some Player.one]], none⟩ : BoardState),
      (⟨[[none, some Player.two, none], [none, none, none], [none, none, some Player.one]], none⟩ : BoardState),
      (⟨[[none, none, some Player.two], [none, none, none], [none, none, some Player.one]], none⟩ : BoardState),
      (⟨[[none, none, none], [some Player.two, none, none], [none, none, some Player.one]], none⟩ : BoardState),
      (⟨[[none, none, none], [none, some Player.two, none], [none, none, some Player.one]], none⟩ : BoardState),
      (⟨[[none, none, none], [none, none, some Player.two], [none, none, some Player.one]], none⟩ : BoardState),
      (⟨[[none, none, none], [none, none, none], [some Player.two, none, some Player.one]], none⟩ : BoardState),
      (⟨[[none, none, none], [none, none, none], [none, some Player.two, some Player.one]], none⟩ : BoardState)]
    (XV.num 0) XV.posInf = some (XV.num 0)
  rewrite [abMinLoop_step c7n61
    (Eq.refl (XV.num 1)) rfl]
  rewrite [abMinLoop_step c7n62
    (Eq.refl (XV.num 1)) rfl]
  rewrite [abMinLoop_step c7n63
    (Eq.refl (XV.num 1)) rfl]
  rewrite [abMinLoop_step c7n64
    (Eq.refl (XV.num 1)) rfl]
  rewrite [abMinLoop_brk c7n65
    (Eq.refl (XV.num 0)) rfl]
  rfl

theorem c7n0 :
    minimax_with_alpha_beta 10 (⟨[[none, none, none], [none, none, none], [none, none, none]], none⟩ : BoardState)
      XV.negInf XV.posInf Player.one =
      some (XV.num 0) := by
  show abMaxLoop (minimax_with_alpha_beta 9)
    [(⟨[[some Player.one, none, none], [none, none, none], [none, none, none]], none⟩ : BoardState),
      (⟨[[none, some Player.one, none], [none, none, none], [none, none, none]], none⟩ : BoardState),
      (⟨[[none, none, some Player.one], [none, none, none], [none, none, none]], none⟩ : BoardState),
      (⟨[[none, none, none], [some Player.one, none, none], [none, none, none]], none⟩ : BoardState),
      (⟨[[none, none, none], [none, some Player.one, none], [none, none, none]], none⟩ : BoardState),
      (⟨[[none, none, none], [none, none, some Player.one], [none, none, none]], none⟩ : BoardState),
      (⟨[[none, none, none], [none, none, none], [some Player.one, none, none]], none⟩ : BoardState),
      (⟨[[none, none, none], [none, none, none], [none, some Player.one, none]], none⟩ : BoardState),
      (⟨[[none, none, none], [none, none, none], [none, none, some Player.one]], none⟩ : BoardState)]
    XV.negInf XV.posInf = some (XV.num 0)
  rewrite [abMaxLoop_step c7n1
    (Eq.refl (XV.num 0)) rfl]
  rewrite [abMaxLoop_step c7n10
    (Eq.refl (XV.num 0)) rfl]
  rewrite [abMaxLoop_step c7n19
    (Eq.refl (XV.num 0)) rfl]
  rewrite [abMaxLoop_step c7n31
    (Eq.refl (XV.num 0)) rfl]
  rewrite [abMaxLoop_step c7n32
    (Eq.refl (XV.num 0)) rfl]
  rewrite [abMaxLoop_step c7n33
    (Eq.refl (XV.num 0)) rfl]
  rewrite [abMaxLoop_step c7n37
    (Eq.refl (XV.num 0)) rfl]
  rewrite [abMaxLoop_step c7n50
    (Eq.refl (XV.num 0)) rfl]
  rewrite [abMaxLoop_step c7n60
    (Eq.refl (XV.num 0)) rfl]
  rfl

/-- Claim C7: for the empty 3 by 3 board with PlayerOne to move, the search
returns 0 — perfect play by both sides ties. -/
theorem empty_board_search_ties :
    minimax (initialState 3) Player.one = some (XV.num 0) := by
  show minimax_with_alpha_beta 10 (⟨[[none, none, none], [none, none, none], [none, none, none]], none⟩ : BoardState)
    XV.negInf XV.posInf Player.one = some (XV.num 0)
  exact c7n0

end TicTacToe
